import Mathlib

/-!
Verification of the InfoDeliver payroll task-orchestration core.

This file shallowly embeds the orchestration core of the repository:
the per-task execution state machine (`application/modules/task_agent.py`,
class `TaskAgent`), the collection-level orchestration
(`application/modules/agent_collection.py`, class `AgentCollection`),
the fuzzy matcher (`application/modules/utils.py`), the deprecated
selection flow (`application/modules/workflow_agent_deprecated.py`) and
the UI-level response dispatch (`application/main.py`).

External collaborators (LLM calls, pandas dataframes, the file store,
the filesystem) are modelled as explicit environment records supplying
their outcomes; dataframes are reduced to the data the core inspects
(the staff-code column).  Python strings are modelled as Lean strings
with explicit helpers mirroring `str.lower`, `str.strip` and
`str.split`.
-/

namespace InfoDeliver

/-! ## Python string helpers -/

/-- Model of Python `str.lower` (ASCII range; the orchestration core only
lowercases ASCII letters, digits and Japanese text, on which this agrees
with Python). -/
def pyLower (s : String) : String := ⟨s.data.map Char.toLower⟩

/-- ASCII whitespace stripped by Python `str.strip()`. -/
def isPyWhitespace (c : Char) : Bool :=
  c = ' ' || c = '\t' || c = '\n' || c = '\x0d' || c = '\x0b' || c = '\x0c'

/-- Model of Python `str.strip()`. -/
def pyStrip (s : String) : String :=
  ⟨((s.data.dropWhile isPyWhitespace).reverse.dropWhile isPyWhitespace).reverse⟩

/-- `message.lower().strip()` as used by `TaskAgent.process_message`. -/
def pyLowerStrip (s : String) : String := pyStrip (pyLower s)

/-- Auxiliary for Python `str.split(sep)` with a one-character separator. -/
def splitCharAux (sep : Char) : List Char → List Char → List (List Char)
  | [], acc => [acc.reverse]
  | c :: rest, acc =>
    if c = sep then acc.reverse :: splitCharAux sep rest []
    else splitCharAux sep rest (c :: acc)

/-- Model of Python `str.split("|")` (`msg.split("|")` in
`WorkflowAgent.execute` / the task-selection payload parsing). -/
def pySplitPipe (s : String) : List String :=
  (splitCharAux '|' s.data []).map (fun l => ⟨l⟩)

/-! ## TaskAgent: execution states (`task_agent.py`)

The source drives a `transitions.Machine` whose states are the strings
`prepare, file, analysis, date, process, test, work, revise, continue,
over`; we embed them as an inductive type. -/

inductive TState where
  | prepare | file | analysis | date | process | test | work | revise
  | cont   -- the source state string "continue"
  | over
deriving DecidableEq, Repr

/-- The state string held by the machine (used as signal tags). -/
def TState.name : TState → String
  | .prepare => "prepare"
  | .file => "file"
  | .analysis => "analysis"
  | .date => "date"
  | .process => "process"
  | .test => "test"
  | .work => "work"
  | .revise => "revise"
  | .cont => "continue"
  | .over => "over"

/-- `TaskAgent.set_next_state` (task_agent.py lines 133-159): one step of
the mode-appropriate order; any state without a matching branch (notably
`over` and `date`) is left unchanged. -/
def set_next_state (current_state : TState) (fast_mode : Bool) : TState :=
  if !fast_mode then
    match current_state with
    | .prepare => .file
    | .file => .analysis
    | .analysis => .process
    | .process => .test
    | .test => .work
    | .work => .revise
    | .revise => .cont
    | .cont => .over
    | .date => .date   -- no matching branch: state unchanged
    | .over => .over   -- no matching branch: state unchanged
  else
    match current_state with
    | .prepare => .file
    | .file => .process
    | .process => .over
    | .analysis => .analysis   -- remaining states: unchanged
    | .date => .date
    | .test => .test
    | .work => .work
    | .revise => .revise
    | .cont => .cont
    | .over => .over

/-- Normal-mode linear order of execution states. -/
def normalOrder : List TState :=
  [.prepare, .file, .analysis, .process, .test, .work, .revise, .cont, .over]

/-- Fast-mode compressed order of execution states. -/
def fastOrder : List TState := [.prepare, .file, .process, .over]

/-- C2: `set_next_state` is a pure function of `(current_state, fast_mode)`
(it is literally a function of that pair in this embedding, mirroring that
the source consults only `self.state` and `self.fast_mode`); each call
advances exactly one step along the mode's fixed order; from `prepare` it
reaches `over` in exactly 3 calls in fast mode (visiting `file`,
`process`, `over`) and in exactly 8 calls in normal mode (visiting `file`,
`analysis`, `process`, `test`, `work`, `revise`, `continue`, `over`); from
`over` further calls leave the state unchanged in either mode. -/
theorem set_next_state_orders :
    (List.Chain' (fun a b => set_next_state a true = b) fastOrder) ∧
    (List.Chain' (fun a b => set_next_state a false = b) normalOrder) ∧
    ((fun s => set_next_state s true)^[3] .prepare = .over) ∧
    ((fun s => set_next_state s true)^[2] .prepare ≠ .over) ∧
    ((fun s => set_next_state s true)^[1] .prepare = .file) ∧
    ((fun s => set_next_state s true)^[2] .prepare = .process) ∧
    ((fun s => set_next_state s false)^[8] .prepare = .over) ∧
    ((fun s => set_next_state s false)^[7] .prepare ≠ .over) ∧
    ([(fun s => set_next_state s false)^[1] .prepare,
      (fun s => set_next_state s false)^[2] .prepare,
      (fun s => set_next_state s false)^[3] .prepare,
      (fun s => set_next_state s false)^[4] .prepare,
      (fun s => set_next_state s false)^[5] .prepare,
      (fun s => set_next_state s false)^[6] .prepare,
      (fun s => set_next_state s false)^[7] .prepare] =
      [.file, .analysis, .process, .test, .work, .revise, .cont]) ∧
    (∀ b : Bool, set_next_state .over b = .over) := by
  refine ⟨?_, ?_, ?_, ?_, ?_, ?_, ?_, ?_, ?_, fun b => by cases b <;> rfl⟩
  · simp only [fastOrder, List.chain'_cons, List.chain'_singleton, and_true]
    decide
  · simp only [normalOrder, List.chain'_cons, List.chain'_singleton, and_true]
    decide
  all_goals decide

/-! ## TaskAgent: runtime state and message processing (`task_agent.py`)

External effects (LLM code generation, dataframe loads, executing the
generated function per staff code, CSV saves) are supplied by a `TEnv`
record.  Error strings in the environment stand for the rendered Python
exception text (`str(e)`, tracebacks elided).  Dataframes are reduced to
the staff-code column, the only data the orchestration core inspects. -/

/-- One entry of a task's `必要なファイル` configuration list. -/
structure FileSpec where
  fname : String          -- ファイル名前
  teigi : String          -- 定義
  output : Bool           -- 出力用
  required : Bool         -- 必要
  owner : Option String   -- 名称 (present on some entries; filled in by collection)
deriving DecidableEq, Repr

/-- `TaskAgent._check_file_necessity`: output files and required files go
to `files`, the rest to `files_optional`. -/
def _check_file_necessity : List FileSpec → List FileSpec × List FileSpec
  | [] => ([], [])
  | f :: rest =>
    let (fs, os) := _check_file_necessity rest
    if f.output then (f :: fs, os)
    else if f.required then (f :: fs, os) else (fs, f :: os)

/-- Mutable runtime state of one `TaskAgent` instance. -/
structure TaskState where
  state : TState
  fast_mode : Bool
  name : String
  files : List FileSpec
  files_optional : List FileSpec
  next_task_name : Option String
  next_task_replaced_file_name : Option String
  next_task_replaced_file_definition : Option String
  current_date : Option String
  generated_func : Bool                 -- whether `self.generated_func` is set
  staff_codes : Option (List String)
  prompt_content : Option String
  replaced_file_name : Option String
  replaced_file_path : Option String
  saved_file_path : Option String
  results : List String                 -- `self.results` (opaque contents)
  file_ids : List (String × Nat)        -- `self.file_ids`
  code_agent_dfs : List String          -- dataframes added to the CodeAgent
  chat_agent_dfs : List String          -- dataframes added to the ChatAgent
  file_state_idx : Nat                  -- `FileState.current_file_idx`
deriving DecidableEq, Repr

/-- `TaskAgent.reset` (task_agent.py lines 674-685). -/
def TaskState.reset (ts : TaskState) : TaskState :=
  { ts with
    file_state_idx := 0,
    state := .prepare,
    results := [],
    file_ids := [],
    code_agent_dfs := [],   -- `self.code_agent = CodeAgent(...)` (fresh)
    chat_agent_dfs := [],   -- `self.chat_agent = ChatAgent(...)` (fresh)
    generated_func := false,
    staff_codes := none,
    prompt_content := none,
    replaced_file_name := none,
    replaced_file_path := none }

/-- Handler response: Python `None`, a string, or a list of strings. -/
inductive Resp where
  | nil
  | str (s : String)
  | list (l : List String)
deriving DecidableEq, Repr

/-- Rendering of an `Optional[str]` into an f-string (`None` prints as
`"None"`). -/
def optRender : Option String → String
  | some s => s
  | none => "None"

def respOfOpt : Option String → Resp
  | some s => .str s
  | none => .nil

def yes_list : List String := ["", "yes", "1", "true", "y", "はい", "そうです"]
def no_list : List String := ["no", "0", "false", "いいえ"]
def skip_list : List String := ["スキップ", "skip"]

/-- Outcome of calling the generated function on one staff code:
a DataFrame result, a non-DataFrame return value, or a raised
exception. -/
inductive RunOut where
  | okDf
  | badType
  | raised (msg : String)
deriving DecidableEq, Repr

/-- The error strings collected by the per-staff-code loops. -/
def runErrs (run : String → RunOut) (codes : List String) : List String :=
  codes.filterMap fun c =>
    match run c with
    | .okDf => none
    | .badType => some ("スタッフコード " ++ c ++ ": 無効な戻り値")
    | .raised e => some ("スタッフコード " ++ c ++ ": " ++ e)

/-- Number of DataFrame results collected (`len(results)`). -/
def runOkCount (run : String → RunOut) (codes : List String) : Nat :=
  (codes.filter fun c => run c = RunOut.okDf).length

/-- Outcome of `save_result_to_csv`: success with the output path, an
exception inside its `try` (caught there, forcing state `over`), or an
exception before the `try` (propagating to the caller). -/
inductive SaveOut where
  | ok (path : String)
  | fail (msg : String)
  | raised (msg : String)
deriving DecidableEq, Repr

/-- Environment of external outcomes for one `TaskAgent.process_message`
call. -/
structure TEnv where
  ruleRead : Except String String       -- reading the rule file
  analysis : Except String (String × List (String × String) × String)
    -- `_analysis_files`: chat summary, per-file info, rule text
  codegen : Except String Unit          -- `_generate_function` generation+load
  regen : Except String Unit            -- `_try_again` regeneration
  run : String → RunOut                 -- generated function, per staff code
  runRegen : String → RunOut            -- regenerated function, per staff code
  testRun : String → Except String String  -- `_test_one_staffcode` execution
  save : SaveOut                        -- save in `_process_all_staffcodes`
  saveRegen : SaveOut                   -- save in `_try_again`
  loadDef : String → Except String (List String)
    -- `load_data_as_df_by_definition` + staff-code column
  fastAttempt : Nat → Except String (String → RunOut)
    -- fast mode, per attempt: generation outcome and per-code behaviour
  fastSave : Nat → SaveOut              -- fast mode save, per attempt

/-- `TaskAgent.get_nextstep`: advance one state, then describe the new
state; returns `(message, signal)` and the updated task state. -/
def get_nextstep (ts : TaskState) : (Option String × Option String) × TaskState :=
  let s := set_next_state ts.state ts.fast_mode
  let ts' := { ts with state := s }
  let pc := optRender ts.prompt_content
  match s with
  | .file => ((some "ファイルをファイルエージェントにチェックします。", some "file"), ts')
  | .analysis => ((some "分析を開始しますか？(Yes/スキップを入力)", some "analysis"), ts')
  | .process =>
    if !ts.fast_mode then
      ((some ("以下のルールで処理を開始しますか？(Yes/no)\n\n" ++ pc), some "process"), ts')
    else
      ((some ("以下のルールで処理を開始します:\n\n" ++ pc ++ "\nしばらくお待ちください"), some "process"), ts')
  | .test => ((some "指定した1つのスタッフコードのテストをスキップしますか？(Yes / スタッフコード)", some "test"), ts')
  | .work => ((some "出力用のスタッフコードに使用しますか？(Yes/no)", some "work"), ts')
  | .revise => ((some "もう一度試す必要がありますか？(Yes/「スキップ」を入力)", some "revise"), ts')
  | .cont => ((some ("次のタスク「" ++ optRender ts.next_task_name ++ "」に進みますか？(Yes/no)"), some "continue"), ts')
  | .over => ((none, some "over"), ts')
  | .prepare => ((none, none), ts')   -- fall-through `return None, None`
  | .date => ((none, none), ts')

/-- `TaskAgent.get_currentstep`: describe the current state without
advancing. -/
def get_currentstep (ts : TaskState) : Option String × Option String :=
  let pc := optRender ts.prompt_content
  match ts.state with
  | .prepare => (some "タスクの処理を開始しますか？", some "prepare")
  | .file => (some "ファイルをファイルエージェントにチェックします。", some "file")
  | .analysis => (some "分析を開始しますか？(Yes/スキップを入力)", some "analysis")
  | .process =>
    if !ts.fast_mode then
      (some ("以下のルールで処理を開始しますか？(Yes/no)\n\n" ++ pc), some "process")
    else
      (some ("以下のルールで処理を開始します:\n" ++ pc ++ "\nしばらくお待ちください"), some "process")
  | .test => (some "指定した1つのスタッフコードのテストをスキップしますか？(Yes / スタッフコード)", some "test")
  | .work => (some "出力用のスタッフコードに使用しますか？(Yes/no)", some "work")
  | .revise => (some "もう一度試す必要がありますか？(Yes/「スキップ」を入力)", some "revise")
  | .cont => (some ("次のタスク「" ++ optRender ts.next_task_name ++ "」に進みますか？(Yes/no)"), some "continue")
  | .over => (none, some "over")
  | .date => (none, none)   -- fall-through `return None, None`

/-- A handler result: response, signal, updated task state. -/
abbrev HRes := Resp × Option String × TaskState

/-- `TaskAgent.process_prepare`. -/
def process_prepare (ts : TaskState) (message : String) : HRes :=
  if message ∉ yes_list then (.str "「Yes」のメッセージをお待ちしています", none, ts)
  else
    let ((m, sig), ts') := get_nextstep ts
    (respOfOpt m, sig, ts')

/-- `TaskAgent.process_analysis`; the skip branch's rule-file read is not
inside a `try` in the source, so a read failure propagates as an
exception (`Except.error`). -/
def process_analysis (env : TEnv) (ts : TaskState) (message : String) :
    Except String HRes :=
  if message ∈ skip_list then
    match env.ruleRead with
    | .error e => .error e
    | .ok rule =>
      let ((m, sig), ts') := get_nextstep { ts with prompt_content := some rule }
      .ok (respOfOpt m, sig, ts')
  else if message ∉ yes_list then
    .ok (.str "「Yes」のメッセージをお待ちしています", none, ts)
  else
    match env.analysis with
    | .error e => .ok (.list ["エラーが発生しました: " ++ e], some "early exit", ts)
    | .ok (chatResp, filesInfo, rule) =>
      let ((m, sig), ts') := get_nextstep { ts with prompt_content := some rule }
      let res := ("全体の分析結果: \n " ++ chatResp) ::
        (filesInfo.flatMap fun p => [p.1 ++ "の分析結果:", p.2]) ++
        ["次のステップ: " ++ optRender m]
      .ok (.list res, sig, ts')

/-- `TaskAgent.process_generation` / `_generate_function`. -/
def process_generation (env : TEnv) (ts : TaskState) (message : String) : HRes :=
  if message ∉ yes_list then (.str "「Yes」のメッセージをお待ちしています", none, ts)
  else
    match env.codegen with
    | .ok _ =>
      let ((m, sig), ts') := get_nextstep { ts with generated_func := true }
      (.str ("処理の準備が完了しました。\n\n次のステップ: " ++ optRender m), sig, ts')
    | .error e =>
      (.str ("エラーが発生しました: " ++ e), some "early exit", { ts with state := .over })

/-- `TaskAgent.process_test` / `_test_one_staffcode` (`^\d+$` modelled as
a non-empty all-ASCII-digit string; the argument is already stripped). -/
def process_test (env : TEnv) (ts : TaskState) (message : String) : HRes :=
  let cleaned := pyStrip message
  if pyLower cleaned ∈ yes_list then
    let ((m, sig), ts') := get_nextstep ts
    (.str ("テストをスキップします\n\n次のステップ: " ++ optRender m), sig, ts')
  else if !(cleaned ≠ "" ∧ cleaned.data.all Char.isDigit : Bool) then
    (.str "有効な「スタッフコード」または「Yes」を入力してください", none, ts)
  else
    match env.testRun cleaned with
    | .ok result =>
      let ((m, sig), ts') := get_nextstep ts
      (.str ("テスト結果:\n" ++ result ++ "\n\n次のステップ: " ++ optRender m), sig, ts')
    | .error e =>
      (.str ("テスト実行中にエラーが発生しました: " ++ e), some "early exit", { ts with state := .over })

/-- `TaskAgent._process_all_staffcodes` (task_agent.py lines 515-560). -/
def _process_all_staffcodes (env : TEnv) (ts : TaskState) : HRes :=
  match ts.staff_codes with
  | none => (.str "「スタッフコード」の取得に失敗しました。", none, ts)
  | some codes =>
    let errs := runErrs env.run codes
    let nres := runOkCount env.run codes
    if nres ≠ 0 then
      match env.save with
      | .raised e =>
        -- exception outside `save_result_to_csv`'s try: outer except
        let ((m, sig), ts') := get_nextstep ts
        (.list ["データ処理中にエラーが発生しました。\n" ++ e, optRender m], sig, ts')
      | .ok path =>
        let ts1 := { ts with saved_file_path := some path }
        let saveMsg := "結果を " ++ path ++ " に保存しました。"
        let res := ["処理が完了しました。\n処理件数: " ++ toString nres ++ "\nエラー件数: " ++ toString errs.length,
                    "エラー詳細:\n" ++ String.intercalate "\n" errs ++ "\n" ++ saveMsg]
        if errs ≠ [] then
          let ((m, sig), ts2) := get_nextstep ts1
          (.list (res ++ [optRender m]), sig, ts2)
        else
          let ((_, _), tsA) := get_nextstep ts1
          let ((m, sig), ts2) := get_nextstep tsA
          (.list (res ++ [optRender m]), sig, ts2)
      | .fail msg =>
        let ts1 := { ts with state := .over }
        let saveMsg := "ファイル保存中にエラー: " ++ msg
        let res := ["処理が完了しました。\n処理件数: " ++ toString nres ++ "\nエラー件数: " ++ toString errs.length,
                    "エラー詳細:\n" ++ String.intercalate "\n" errs ++ "\n" ++ saveMsg]
        if errs ≠ [] then
          let ((m, sig), ts2) := get_nextstep ts1
          (.list (res ++ [optRender m]), sig, ts2)
        else
          let ((_, _), tsA) := get_nextstep ts1
          let ((m, sig), ts2) := get_nextstep tsA
          (.list (res ++ [optRender m]), sig, ts2)
    else
      let ((m, sig), ts') := get_nextstep ts
      (.list ["処理に失敗しました。データの処理結果がありません。", optRender m], sig, ts')

/-- `TaskAgent.process_work`. -/
def process_work (env : TEnv) (ts : TaskState) (message : String) : HRes :=
  if message ∉ yes_list then (.str "「Yes」のメッセージをお待ちしています", none, ts)
  else _process_all_staffcodes env ts

/-- `TaskAgent._try_again` (revise-state retry). -/
def _try_again (env : TEnv) (ts : TaskState) : HRes :=
  match env.regen with
  | .error e =>
    let (m, sig) := get_currentstep ts
    (.str ("データ処理中にエラーが発生しました: " ++ e ++ "\n\n" ++ optRender m), sig, ts)
  | .ok _ =>
    let ts1 := { ts with generated_func := true }
    match ts1.staff_codes with
    | none =>
      -- iterating over `None` raises TypeError, caught by the except
      let (m, sig) := get_currentstep ts1
      (.str ("データ処理中にエラーが発生しました: 'NoneType' object is not iterable\n\n" ++ optRender m), sig, ts1)
    | some codes =>
      let errs := runErrs env.runRegen codes
      let nres := runOkCount env.runRegen codes
      if nres ≠ 0 then
        match env.saveRegen with
        | .raised e =>
          let (m, sig) := get_currentstep ts1
          (.str ("データ処理中にエラーが発生しました: " ++ e ++ "\n\n" ++ optRender m), sig, ts1)
        | .ok path =>
          let ts2 := { ts1 with saved_file_path := some path }
          let saveMsg := "結果を " ++ path ++ " に保存しました。"
          let res := ["処理が完了。処理件数: " ++ toString nres ++ ", エラー件数: " ++ toString errs.length,
                      "エラー詳細:\n" ++ String.intercalate "\n" errs ++ "\n" ++ saveMsg]
          if errs ≠ [] then
            let (m, sig) := get_currentstep ts2
            (.str (String.intercalate "\n" (res ++ [optRender m])), sig, ts2)
          else
            let ((m, sig), ts3) := get_nextstep ts2
            (.str (String.intercalate "\n" (res ++ [optRender m])), sig, ts3)
        | .fail msg =>
          let ts2 := { ts1 with state := .over }
          let saveMsg := "ファイル保存中にエラー: " ++ msg
          let res := ["処理が完了。処理件数: " ++ toString nres ++ ", エラー件数: " ++ toString errs.length,
                      "エラー詳細:\n" ++ String.intercalate "\n" errs ++ "\n" ++ saveMsg]
          if errs ≠ [] then
            let (m, sig) := get_currentstep ts2
            (.str (String.intercalate "\n" (res ++ [optRender m])), sig, ts2)
          else
            let ((m, sig), ts3) := get_nextstep ts2
            (.str (String.intercalate "\n" (res ++ [optRender m])), sig, ts3)
      else
        let (m, sig) := get_currentstep ts1
        (.str ("処理に失敗しました。データの処理結果がありません。\n" ++ optRender m), sig, ts1)

/-- `TaskAgent.process_revise`. -/
def process_revise (env : TEnv) (ts : TaskState) (message : String) : HRes :=
  if message ∈ skip_list then
    let ((m, sig), ts') := get_nextstep ts
    (respOfOpt m, sig, ts')
  else if message ∉ yes_list then (.str "「Yes」のメッセージをお待ちしています", none, ts)
  else _try_again env ts

/-- `TaskAgent.process_continue`. -/
def process_continue (ts : TaskState) (message : String) : HRes :=
  if message ∉ yes_list then (.str "「Yes」のメッセージをお待ちしています", none, ts)
  else
    (.str ("次のタスク「" ++ optRender ts.next_task_name ++ "」に進みます"), some "next_task", ts)

/-- Result of the file-loading loop inside
`TaskAgent._process_file_message`. -/
inductive FLRes where
  | done (ts : TaskState)
  | early (r : HRes)
  | exn (e : String) (ts : TaskState)

/-- The `for cur_idx in range(total_files)` loop of
`TaskAgent._process_file_message` over `files ++ files_optional`. -/
def taskFileLoop (env : TEnv) : TaskState → List FileSpec → FLRes
  | ts, [] => .done ts
  | ts, f :: rest =>
    match env.loadDef f.teigi with
    | .error e => .exn e ts
    | .ok codes =>
      let ts1 := { ts with code_agent_dfs := ts.code_agent_dfs ++ [f.fname],
                           chat_agent_dfs := ts.chat_agent_dfs ++ [f.fname] }
      if f.output then
        match ts1.staff_codes with
        | some _ =>
          .early (.str "複数のファイルが同時に出力用となっていますが、1つのみが想定されています。処理終了します。",
                  some "over", { ts1 with state := .over })
        | none => taskFileLoop env { ts1 with staff_codes := some codes } rest
      else taskFileLoop env ts1 rest

/-- `TaskAgent._process_file_message` (task_agent.py lines 616-647). -/
def task_process_file_message (env : TEnv) (ts : TaskState) : HRes :=
  match taskFileLoop env ts (ts.files ++ ts.files_optional) with
  | .exn e ts' => (.str ("エラー: " ++ e ++ "。\n処理を終了します。"), some "early exit", { ts' with state := .over })
  | .early r => r
  | .done ts' =>
    match (if ts'.fast_mode then (env.ruleRead.map fun r => { ts' with prompt_content := some r }) else .ok ts') with
    | .error e => (.str ("エラー: " ++ e ++ "。\n処理を終了します。"), some "early exit", { ts' with state := .over })
    | .ok ts2 =>
      let ((m, sig), ts3) := get_nextstep ts2
      (.str ("ファイルチェック完了。\n次のステップ: " ++ optRender m), sig, ts3)

/-- `TaskAgent._process_message_normal_mode`. -/
def _process_message_normal_mode (env : TEnv) (ts : TaskState) (message : String) :
    Except String HRes :=
  match ts.state with
  | .prepare => .ok (process_prepare ts message)
  | .file => .ok (task_process_file_message env ts)
  | .analysis => process_analysis env ts message
  | .process => .ok (process_generation env ts message)
  | .test => .ok (process_test env ts message)
  | .work => .ok (process_work env ts message)
  | .revise => .ok (process_revise env ts message)
  | .cont => .ok (process_continue ts message)
  | .date => .ok (.str "すべてのステップが完了しました。", some "over", ts)
  | .over => .ok (.str "すべてのステップが完了しました。", some "over", ts)

/-- One iteration of the fast-mode bounded retry loop
(`_process_message_fast_mode`, process state).  `attemptIdx` numbers the
attempt; `attemptsAfter` is the value of `attempts` after the increment
at the top of the loop body (`max_loop_times = 2`).  Returns the state
carried into the next iteration and, when the body returns, the
result. -/
def fastStep (env : TEnv) (ts : TaskState) (attemptIdx attemptsAfter : Nat) :
    TaskState × Option HRes :=
  match env.fastAttempt attemptIdx with
  | .error e =>
    if attemptsAfter > 2 then
      (ts, some (.list ["エラー: " ++ e, "処理を終了します"], some "early exit", { ts with state := .over }))
    else (ts, none)
  | .ok runf =>
    let ts1 := { ts with generated_func := true }
    let codes := ts1.staff_codes.getD []   -- tolist() if not None else []
    let errs := runErrs runf codes
    let nres := runOkCount runf codes
    if nres ≠ 0 ∧ (errs = [] ∨ attemptsAfter > 2) then
      match env.fastSave attemptIdx with
      | .raised e =>
        -- save raised outside its try: caught by the loop's except
        if attemptsAfter > 2 then
          (ts1, some (.list ["エラー: " ++ e, "処理を終了します"], some "early exit", { ts1 with state := .over }))
        else (ts1, none)
      | .ok path =>
        let ts2 := { ts1 with saved_file_path := some path }
        let saveMsg := "結果を " ++ path ++ " に保存しました。"
        (ts1, some (.list ["処理が完了しました。処理件数: " ++ toString nres ++ ", エラー件数: " ++ toString errs.length,
                           "エラー詳細:\n" ++ String.intercalate "\n" errs ++ "\n" ++ saveMsg],
                    some "over", { ts2 with state := .over }))
      | .fail msg =>
        let saveMsg := "ファイル保存中にエラー: " ++ msg
        (ts1, some (.list ["処理が完了しました。処理件数: " ++ toString nres ++ ", エラー件数: " ++ toString errs.length,
                           "エラー詳細:\n" ++ String.intercalate "\n" errs ++ "\n" ++ saveMsg],
                    some "over", { ts1 with state := .over }))
    else if nres = 0 ∧ attemptsAfter > 2 then
      (ts1, some (.list ["処理に失敗しました。結果がありません。", "終了します。"], some "early exit", { ts1 with state := .over }))
    else (ts1, none)

/-- The `while attempts <= max_loop_times` loop of
`_process_message_fast_mode`; `attempts` starts at 1.  The fall-through
`return None, "over"` after the loop is included (it is in fact
unreachable). -/
def fastLoop (env : TEnv) (ts : TaskState) (attempts : Nat) : HRes :=
  if attempts ≤ 2 then
    match fastStep env ts attempts (attempts + 1) with
    | (_, some r) => r
    | (ts', none) => fastLoop env ts' (attempts + 1)
  else (.nil, some "over", ts)
termination_by 3 - attempts

/-- `TaskAgent._process_message_fast_mode` (task_agent.py lines 340-415). -/
def _process_message_fast_mode (env : TEnv) (ts : TaskState) (message : String) : HRes :=
  if pyLowerStrip message ∈ no_list then (.str "処理を終了します。", some "early exit", ts)
  else
    match ts.state with
    | .prepare =>
      let ((m, sig), ts') := get_nextstep ts
      (respOfOpt m, sig, ts')
    | .file => task_process_file_message env ts
    | .process => fastLoop env ts 1
    | .analysis => (.nil, some "over", ts)   -- fall-through `return None, "over"`
    | .date => (.nil, some "over", ts)
    | .test => (.nil, some "over", ts)
    | .work => (.nil, some "over", ts)
    | .revise => (.nil, some "over", ts)
    | .cont => (.nil, some "over", ts)
    | .over => (.nil, some "over", ts)

/-- `TaskAgent.process_message` (task_agent.py lines 326-338). -/
def process_message (env : TEnv) (ts : TaskState) (message : String) :
    Except String HRes :=
  if pyLowerStrip message ∈ no_list then
    .ok (.str "処理を終了します。", some "early exit", ts)
  else if ts.files.length = 0 then
    .ok (.str "出力用のファイルの存在が必要です。処理終了します。", some "early exit", ts)
  else if !ts.fast_mode then _process_message_normal_mode env ts message
  else .ok (_process_message_fast_mode env ts message)

/-! ## Fixtures for concrete evaluations -/

/-- An environment in which every external call succeeds. -/
def defaultEnv : TEnv where
  ruleRead := .ok "rule text"
  analysis := .ok ("summary", [], "rule text")
  codegen := .ok ()
  regen := .ok ()
  run := fun _ => .okDf
  runRegen := fun _ => .okDf
  testRun := fun _ => .ok "result"
  save := .ok "/output/a.csv"
  saveRegen := .ok "/output/a.csv"
  loadDef := fun _ => .ok ["1001"]
  fastAttempt := fun _ => .ok fun _ => .okDf
  fastSave := fun _ => .ok "/output/a.csv"

/-- A freshly created task runtime state with no required files. -/
def sampleTask : TaskState where
  state := .prepare
  fast_mode := false
  name := "給与タスクA"
  files := []
  files_optional := []
  next_task_name := none
  next_task_replaced_file_name := none
  next_task_replaced_file_definition := none
  current_date := none
  generated_func := false
  staff_codes := none
  prompt_content := none
  replaced_file_name := none
  replaced_file_path := none
  saved_file_path := none
  results := []
  file_ids := []
  code_agent_dfs := []
  chat_agent_dfs := []
  file_state_idx := 0

/-- A required (output) file specification. -/
def sampleFile : FileSpec where
  fname := "出力ファイル"
  teigi := "output_def"
  output := true
  required := true
  owner := none

/-! ## C4: the no-variant override comes first -/

/-- C4: in both normal and fast mode, a message whose lowercased and
stripped form is a no-variant makes `process_message` return
`("処理を終了します。", "early exit")` immediately, with the task state
untouched, regardless of execution state, required-file list (including
the empty one) and environment — i.e. the check precedes the
zero-required-files precondition and the per-state dispatch. -/
theorem no_variant_override (env : TEnv) (ts : TaskState) (message : String)
    (h : pyLowerStrip message ∈ no_list) :
    process_message env ts message =
      .ok (.str "処理を終了します。", some "early exit", ts) := by
  unfold process_message
  rw [if_pos h]

theorem no_variant_override_witness :
    pyLowerStrip " No " ∈ no_list ∧
    process_message defaultEnv { sampleTask with fast_mode := true, state := .process } " No " =
      .ok (.str "処理を終了します。", some "early exit",
           { sampleTask with fast_mode := true, state := .process }) :=
  ⟨by decide, no_variant_override defaultEnv _ " No " (by decide)⟩

/-! ## C3: the zero-required-files early exit (corrected) -/

/-- C3 counterexample: for a task with zero required files, the input
`"no"` does *not* yield the pair
`("出力用のファイルの存在が必要です。処理終了します。", "early exit")` —
the no-variant override fires first and returns a different response
text, so the claimed "for every input message text" fails. -/
theorem zero_files_counterexample :
    sampleTask.files = [] ∧
    process_message defaultEnv sampleTask "no" =
      .ok (.str "処理を終了します。", some "early exit", sampleTask) ∧
    Resp.str "処理を終了します。" ≠
      Resp.str "出力用のファイルの存在が必要です。処理終了します。" := by
  refine ⟨rfl, ?_, by decide⟩
  have hno : pyLowerStrip "no" ∈ no_list := by decide
  unfold process_message
  rw [if_pos hno]

/-- C3 (amended): for every task whose required-files list is empty,
`process_message` returns exactly
`("出力用のファイルの存在が必要です。処理終了します。", "early exit")`
for every input message that is not a no-variant, in every execution
state and environment. -/
theorem zero_files_early_exit (env : TEnv) (ts : TaskState) (message : String)
    (hfiles : ts.files = []) (hno : pyLowerStrip message ∉ no_list) :
    process_message env ts message =
      .ok (.str "出力用のファイルの存在が必要です。処理終了します。", some "early exit", ts) := by
  unfold process_message
  rw [if_neg hno, if_pos (by simp [hfiles])]

theorem zero_files_early_exit_witness :
    sampleTask.files = [] ∧ pyLowerStrip "yes" ∉ no_list ∧
    process_message defaultEnv { sampleTask with state := .work } "yes" =
      .ok (.str "出力用のファイルの存在が必要です。処理終了します。", some "early exit",
           { sampleTask with state := .work }) :=
  ⟨rfl, by decide, zero_files_early_exit defaultEnv _ "yes" rfl (by decide)⟩

/-! ## C9: what `reset` clears (corrected) -/

/-- A task state mid-run: fast mode on, date stamped, output saved. -/
def midRunTask : TaskState :=
  { sampleTask with fast_mode := true, current_date := some "2024-01-31", saved_file_path := some "/output/prev.csv", state := .work }

/-- C9 counterexample: `reset` does not clear `fast_mode`,
`current_date` or `saved_file_path` — on a task state where they are
set, they survive the reset unchanged. -/
theorem reset_counterexample :
    midRunTask.reset.fast_mode = true ∧
    midRunTask.reset.current_date = some "2024-01-31" ∧
    midRunTask.reset.saved_file_path = some "/output/prev.csv" :=
  ⟨rfl, rfl, rfl⟩

/-- C9 (amended): an explicit task reset returns the execution state to
`prepare` and clears the generated function, staff codes, prompt
content, replaced-file fields, results, file ids, loaded-dataframe
context and the file cursor — but it leaves `fast_mode`, `current_date`
and the saved output path unchanged. -/
theorem reset_clears_and_preserves (ts : TaskState) :
    ts.reset.state = .prepare ∧
    ts.reset.generated_func = false ∧
    ts.reset.staff_codes = none ∧
    ts.reset.prompt_content = none ∧
    ts.reset.replaced_file_name = none ∧
    ts.reset.replaced_file_path = none ∧
    ts.reset.results = [] ∧
    ts.reset.file_ids = [] ∧
    ts.reset.code_agent_dfs = [] ∧
    ts.reset.chat_agent_dfs = [] ∧
    ts.reset.file_state_idx = 0 ∧
    ts.reset.fast_mode = ts.fast_mode ∧
    ts.reset.current_date = ts.current_date ∧
    ts.reset.saved_file_path = ts.saved_file_path := by
  exact ⟨rfl, rfl, rfl, rfl, rfl, rfl, rfl, rfl, rfl, rfl, rfl, rfl, rfl, rfl⟩

/-! ## C10: step counts out of the normal-mode work state -/

/-- C10: in normal mode's `work` state, on a yes-variant message, when
the generated function yields at least one result and zero per-code
errors (and the CSV save succeeds), the machine advances two steps —
through `revise` directly to `continue` — returning signal
`"continue"`; when at least one per-code error occurs but some result
exists, it advances exactly one step, to `revise`, returning signal
`"revise"`. -/
theorem work_state_advance (env : TEnv) (ts : TaskState) (message : String)
    (codes : List String) (path : String)
    (hmode : ts.fast_mode = false) (hstate : ts.state = TState.work)
    (hyes : message ∈ yes_list) (hno : pyLowerStrip message ∉ no_list)
    (hfiles : ts.files ≠ []) (hcodes : ts.staff_codes = some codes)
    (hok : 0 < runOkCount env.run codes) (hsave : env.save = .ok path) :
    (runErrs env.run codes = [] →
      ∃ r : HRes, process_message env ts message = .ok r ∧
        r.2.1 = some "continue" ∧ r.2.2.state = TState.cont) ∧
    (runErrs env.run codes ≠ [] →
      ∃ r : HRes, process_message env ts message = .ok r ∧
        r.2.1 = some "revise" ∧ r.2.2.state = TState.revise) := by
  have hlen : ¬ ts.files.length = 0 := by
    simpa [List.length_eq_zero] using hfiles
  have key : process_message env ts message = .ok (_process_all_staffcodes env ts) := by
    unfold process_message _process_message_normal_mode process_work
    rw [if_neg hno, if_neg hlen, hmode]
    simp [hstate, hyes]
  have hne : runOkCount env.run codes ≠ 0 := Nat.pos_iff_ne_zero.mp hok
  constructor
  · intro herrs
    rw [key]
    unfold _process_all_staffcodes
    rw [hcodes]
    simp only [hne, herrs, hsave, get_nextstep, set_next_state, hstate, hmode]
    simp [hne]
  · intro herrs
    rw [key]
    unfold _process_all_staffcodes
    rw [hcodes]
    simp only [hne, herrs, hsave, get_nextstep, set_next_state, hstate, hmode]
    simp [hne, herrs]

/-! ## C8: the fast-mode bounded retry loop -/

/-- One fast-mode attempt depends only on that attempt's generation
outcome and save outcome. -/
theorem fastStep_congr (env env' : TEnv) (ts : TaskState) (n m : Nat)
    (h1 : env'.fastAttempt n = env.fastAttempt n)
    (h2 : env'.fastSave n = env.fastSave n) :
    fastStep env' ts n m = fastStep env ts n m := by
  unfold fastStep
  rw [h1, h2]

/-- A fast-mode attempt never changes the staff-code set carried into
the next attempt. -/
theorem fastStep_staff_codes (env : TEnv) (ts : TaskState) (n m : Nat) :
    ((fastStep env ts n m).1).staff_codes = ts.staff_codes := by
  unfold fastStep
  rcases env.fastAttempt n with e | f
  · dsimp only
    split <;> rfl
  · dsimp only
    split
    · split
      · split <;> rfl
      · rfl
      · rfl
    · split <;> rfl

/-- The fast-mode `while` loop started at `attempts = 1` unrolls into
exactly two attempt bodies. -/
theorem fastLoop_unroll (env : TEnv) (ts : TaskState) :
    fastLoop env ts 1 =
      (match fastStep env ts 1 2 with
       | (_, some r) => r
       | (ts', none) =>
         (match fastStep env ts' 2 3 with
          | (_, some r) => r
          | (ts'', none) => (.nil, some "over", ts''))) := by
  rw [fastLoop.eq_def]
  norm_num
  rcases h : fastStep env ts 1 2 with ⟨ts', r⟩
  rcases r with _ | r
  · dsimp only
    rw [fastLoop.eq_def]
    norm_num
    rcases h2 : fastStep env ts' 2 3 with ⟨ts'', r2⟩
    rcases r2 with _ | r2
    · dsimp only
      rw [fastLoop.eq_def]
      norm_num
    · rfl
  · rfl

/-- C8: fast mode's `process` handling is a bounded retry loop of at
most 2 attempts, each regenerating code and running it against every
staff code.  (1) The loop's result is determined by the first two
attempts alone; (2) a return on the first (non-final) attempt happens
only on a clean success with at least one result; (3) at the final
attempt, partial success — at least one result, possibly per-code
errors — yields signal `"over"` with state `over`; (4) no result after
the final attempt yields the failure response with signal
`"early exit"`; (5) an exception at the final attempt also yields
`"early exit"`. -/
theorem fast_process_bounded_retry (env : TEnv) (ts : TaskState) :
    (∀ env' : TEnv, env'.fastAttempt 1 = env.fastAttempt 1 →
      env'.fastAttempt 2 = env.fastAttempt 2 →
      env'.fastSave 1 = env.fastSave 1 → env'.fastSave 2 = env.fastSave 2 →
      fastLoop env' ts 1 = fastLoop env ts 1) ∧
    (∀ r : HRes, (fastStep env ts 1 2).2 = some r →
      fastLoop env ts 1 = r ∧
      ∃ f, env.fastAttempt 1 = .ok f ∧
        0 < runOkCount f (ts.staff_codes.getD []) ∧
        runErrs f (ts.staff_codes.getD []) = []) ∧
    ((fastStep env ts 1 2).2 = none →
      ∀ f, env.fastAttempt 2 = .ok f →
      0 < runOkCount f (ts.staff_codes.getD []) →
      (∀ e, env.fastSave 2 ≠ .raised e) →
      (fastLoop env ts 1).2.1 = some "over" ∧
      (fastLoop env ts 1).2.2.state = TState.over) ∧
    ((fastStep env ts 1 2).2 = none →
      ∀ f, env.fastAttempt 2 = .ok f →
      runOkCount f (ts.staff_codes.getD []) = 0 →
      (fastLoop env ts 1).1 = .list ["処理に失敗しました。結果がありません。", "終了します。"] ∧
      (fastLoop env ts 1).2.1 = some "early exit") ∧
    ((fastStep env ts 1 2).2 = none →
      ∀ e, env.fastAttempt 2 = .error e →
      (fastLoop env ts 1).1 = .list ["エラー: " ++ e, "処理を終了します"] ∧
      (fastLoop env ts 1).2.1 = some "early exit") := by
  refine ⟨?_, ?_, ?_, ?_, ?_⟩
  · intro env' h1 h2 h3 h4
    have hc1 : ∀ tz : TaskState, fastStep env' tz 1 2 = fastStep env tz 1 2 :=
      fun tz => fastStep_congr env env' tz 1 2 h1 h3
    have hc2 : ∀ tz : TaskState, fastStep env' tz 2 3 = fastStep env tz 2 3 :=
      fun tz => fastStep_congr env env' tz 2 3 h2 h4
    rw [fastLoop_unroll env ts, fastLoop_unroll env' ts]
    simp only [hc1, hc2]
  · intro r hr
    constructor
    · rw [fastLoop_unroll env ts]
      rcases h : fastStep env ts 1 2 with ⟨ts', r'⟩
      rw [h] at hr
      simp only at hr
      rw [hr]
    · rcases henv : env.fastAttempt 1 with e | f
      · exfalso
        unfold fastStep at hr
        rw [henv] at hr
        simp at hr
      · refine ⟨f, rfl, ?_, ?_⟩ <;>
        · unfold fastStep at hr
          rw [henv] at hr
          simp only at hr
          by_cases hcond : runOkCount f (ts.staff_codes.getD []) ≠ 0 ∧
              (runErrs f (ts.staff_codes.getD []) = [] ∨ 2 > 2)
          · rcases hcond with ⟨hn, he | he⟩
            · first
                | exact Nat.pos_of_ne_zero hn
                | exact he
            · omega
          · rw [if_neg hcond] at hr
            simp at hr
  · intro hcont f hatt hok hsave
    have hsc : ((fastStep env ts 1 2).1).staff_codes = ts.staff_codes :=
      fastStep_staff_codes env ts 1 2
    rw [fastLoop_unroll env ts]
    rcases h : fastStep env ts 1 2 with ⟨ts', r⟩
    rw [h] at hcont hsc
    simp only at hcont hsc
    subst hcont
    simp only
    unfold fastStep
    rw [hatt]
    simp only [hsc]
    have hcond : runOkCount f (ts.staff_codes.getD []) ≠ 0 ∧
        (runErrs f (ts.staff_codes.getD []) = [] ∨ 3 > 2) :=
      ⟨Nat.pos_iff_ne_zero.mp hok, Or.inr (by omega)⟩
    rw [if_pos hcond]
    rcases hs : env.fastSave 2 with p | msg | e
    · simp
    · simp
    · exact absurd hs (hsave e)
  · intro hcont f hatt hzero
    have hsc : ((fastStep env ts 1 2).1).staff_codes = ts.staff_codes :=
      fastStep_staff_codes env ts 1 2
    rw [fastLoop_unroll env ts]
    rcases h : fastStep env ts 1 2 with ⟨ts', r⟩
    rw [h] at hcont hsc
    simp only at hcont hsc
    subst hcont
    simp only
    unfold fastStep
    rw [hatt]
    simp only [hsc]
    have hcond : ¬ (runOkCount f (ts.staff_codes.getD []) ≠ 0 ∧
        (runErrs f (ts.staff_codes.getD []) = [] ∨ 3 > 2)) := by
      simp [hzero]
    rw [if_neg hcond, if_pos ⟨hzero, by omega⟩]
    simp
  · intro hcont e hatt
    rw [fastLoop_unroll env ts]
    rcases h : fastStep env ts 1 2 with ⟨ts', r⟩
    rw [h] at hcont
    simp only at hcont
    subst hcont
    simp only
    unfold fastStep
    rw [hatt]
    norm_num

/-- A task ready in the normal-mode work state. -/
def workTask : TaskState :=
  { sampleTask with state := .work, files := [sampleFile], staff_codes := some ["1001"] }

/-- Same, with two staff codes. -/
def workTask2 : TaskState :=
  { workTask with staff_codes := some ["1001", "1002"] }

/-- An environment whose generated function errors on staff code 1002. -/
def envErr : TEnv :=
  { defaultEnv with run := fun c => if c = "1002" then .raised "boom" else .okDf }

theorem work_state_advance_witness :
    (∃ r : HRes, process_message defaultEnv workTask "yes" = .ok r ∧
      r.2.1 = some "continue" ∧ r.2.2.state = TState.cont) ∧
    (∃ r : HRes, process_message envErr workTask2 "yes" = .ok r ∧
      r.2.1 = some "revise" ∧ r.2.2.state = TState.revise) :=
  ⟨(work_state_advance defaultEnv workTask "yes" ["1001"] "/output/a.csv"
      rfl rfl (by decide) (by decide) (by decide) rfl (by decide) rfl).1 (by decide),
   (work_state_advance envErr workTask2 "yes" ["1001", "1002"] "/output/a.csv"
      rfl rfl (by decide) (by decide) (by decide) rfl (by decide) rfl).2 (by decide)⟩

/-- A task ready in the fast-mode process state. -/
def fastTask : TaskState :=
  { sampleTask with state := .process, fast_mode := true, files := [sampleFile], staff_codes := some ["1001", "1002"] }

/-- Fast-mode environment: attempt 1 raises in generation, attempt 2
produces a partial success (one result, one per-code error). -/
def envFastRetry : TEnv :=
  { defaultEnv with fastAttempt := fun n => if n = 1 then .error "generation failed" else .ok (fun c => if c = "1002" then .raised "x" else .okDf) }

theorem fast_process_bounded_retry_witness :
    (fastStep envFastRetry fastTask 1 2).2 = none ∧
    (fastLoop envFastRetry fastTask 1).2.1 = some "over" ∧
    (fastLoop envFastRetry fastTask 1).2.2.state = TState.over :=
  ⟨by decide,
   (fast_process_bounded_retry envFastRetry fastTask).2.2.1 (by decide) _ rfl
     (by decide) (fun e h => by simp [envFastRetry, defaultEnv] at h)⟩

/-! ## Date format validation (`TaskAgent._is_valid_date_format`)

The source checks `re.match(r"^\d{4}-(0[1-9]|1[0-2])-(0[1-9]|[12][0-9]|3[01])$", s)`.
Characters are compared through their code points (48-57 are `0`-`9`,
45 is `-`, 10 is the newline that Python's `$` tolerates at the end). -/

/-- An ASCII digit (`[0-9]`; `\d` restricted to ASCII). -/
def isAsciiDigit (c : Char) : Bool := decide (48 ≤ c.toNat ∧ c.toNat ≤ 57)

/-- The body of the date regex over an exploded string. -/
def isValidDateCore : List Char → Bool
  | [y1, y2, y3, y4, s1, m1, m2, s2, d1, d2] =>
    isAsciiDigit y1 && isAsciiDigit y2 && isAsciiDigit y3 && isAsciiDigit y4 &&
    decide (s1.toNat = 45) && decide (s2.toNat = 45) &&
    (  (decide (m1.toNat = 48) && decide (49 ≤ m2.toNat ∧ m2.toNat ≤ 57))   -- 0[1-9]
    || (decide (m1.toNat = 49) && decide (48 ≤ m2.toNat ∧ m2.toNat ≤ 50))) &&  -- 1[0-2]
    (  (decide (d1.toNat = 48) && decide (49 ≤ d2.toNat ∧ d2.toNat ≤ 57))   -- 0[1-9]
    || (decide (d1.toNat = 49 ∨ d1.toNat = 50) && isAsciiDigit d2)          -- [12][0-9]
    || (decide (d1.toNat = 51) && decide (d2.toNat = 48 ∨ d2.toNat = 49)))  -- 3[01]
  | _ => false

/-- `TaskAgent._is_valid_date_format`: Python's `$` also matches just
before one trailing newline. -/
def _is_valid_date_format (s : String) : Bool :=
  isValidDateCore s.data ||
    (if s.data.getLast? = some '\n' then isValidDateCore s.data.dropLast else false)

/-! ## Lexicographic string order (Python `<` on `str`, by code points) -/

/-- Python's `<` on strings: lexicographic comparison by code point. -/
def lexLtChars : List Char → List Char → Bool
  | [], [] => false
  | [], _ :: _ => true
  | _ :: _, [] => false
  | a :: as, b :: bs =>
    if a.toNat < b.toNat then true
    else if b.toNat < a.toNat then false
    else lexLtChars as bs

/-- The `≤` used by Python `sorted` on strings. -/
def pyStrLe (a b : String) : Bool := !(lexLtChars b.data a.data)

/-! ## AgentCollection (`agent_collection.py`) -/

/-- Orchestration states of the `AgentCollection` machine. -/
inductive ACMode where
  | chat | file | task | date
deriving DecidableEq, Repr

/-- One entry of `needed_file_list` (a file config dict tagged with the
owning task's name `名称`). -/
structure NFile where
  teigi : String   -- 定義
  fname : String   -- ファイル名前
  output : Bool    -- 出力用
  owner : String   -- 名称
deriving DecidableEq, Repr, Inhabited

/-- The session-level mutable state of an `AgentCollection`. -/
structure ACState where
  mode : ACMode
  workflow : List String
  agents : List (String × TaskState)   -- `task_agents`, insertion-ordered dict
  current_task : Option String
  needed_file_list : List NFile
  cur_file_idx : Nat
  reused_output_file_set : List String
  uploadedDefs : List String           -- definitions stored in the FileAgent
deriving DecidableEq, Repr

/-- `self.task_agents[name]` (first matching key of the ordered dict). -/
def lookupAgent (ags : List (String × TaskState)) (n : String) : Option TaskState :=
  (ags.find? fun p => p.1 = n).map Prod.snd

/-- In-place mutation of the task agent stored under a key (keys are
unique in the source dict; a missing key, which would raise `KeyError`
in Python, leaves the list unchanged here — theorems that depend on the
entry add its presence as a hypothesis). -/
def updateAgent (ags : List (String × TaskState)) (n : String) (f : TaskState → TaskState) :
    List (String × TaskState) :=
  ags.map fun p => if p.1 = n then (p.1, f p.2) else p

/-- `AgentCollection.set_task_speed_mode` (agent_collection.py lines
125-131). -/
def set_task_speed_mode (ac : ACState) : ACState :=
  if ac.workflow.length > 1 then
    let ags := ac.workflow.foldl (fun ags n => updateAgent ags n fun t => { t with fast_mode := true }) ac.agents
    { ac with agents := ags }
  else
    let ags := ac.workflow.foldl (fun ags n => updateAgent ags n fun t => { t with fast_mode := false }) ac.agents
    { ac with agents := ags }

/-- `AgentCollection._process_date_message` (lines 245-254): lowercase,
validate, stamp every known task's `current_date`, signal
`"switch task"`; on bad format re-prompt with the empty signal and no
state change. -/
def _process_date_message (ac : ACState) (message : String) : (String × String) × ACState :=
  let ml := pyLower message
  if !_is_valid_date_format ml then
    (("日付形式をチェックして、もう一回入力してください。", ""), ac)
  else
    (("現在日付は「" ++ ml ++ "」です。\nタスクの処理は開始します。", "switch task"),
     { ac with agents := ac.agents.map fun p => (p.1, { p.2 with current_date := some ml }) })

/-- `AgentCollection._collect_all_needed_files` (lines 344-398): flatten
required then optional files of each queued task in queue order, tag
them with the owning task's name, record chained ("replaced") file
definitions, and reset the cursor to 0. -/
def _collect_all_needed_files (ac : ACState) : ACState :=
  let needed := ac.workflow.flatMap fun n =>
    match lookupAgent ac.agents n with
    | none => []   -- `if task_name not in self.task_agents: continue`
    | some t =>
      (t.files ++ t.files_optional).map fun f =>
        { teigi := f.teigi, fname := f.fname, output := f.output,
          owner := f.owner.getD t.name : NFile }
  let reused := ac.workflow.filterMap fun n =>
    match lookupAgent ac.agents n with
    | none => none
    | some t =>
      match t.next_task_replaced_file_definition with
      | some d => if d ≠ "" then some d else none   -- Python truthiness `if next_def:`
      | none => none
  { ac with needed_file_list := needed, reused_output_file_set := reused, cur_file_idx := 0 }

/-- `AgentCollection.process_files` (lines 321-342). -/
def process_files (ac : ACState) : (Resp × String) × ACState :=
  let ac1 := if ac.mode ≠ ACMode.file then { ac with mode := .file } else ac
  let ac2 := _collect_all_needed_files ac1
  if ac2.needed_file_list = [] then
    ((.list ["このタスクには必要なファイルがありません。設定を確認してください。"], "no_files"), ac2)
  else
    let ac3 := if ac2.cur_file_idx ≥ ac2.needed_file_list.length then { ac2 with cur_file_idx := 0 } else ac2
    ((.list ["今から必要なファイルをアップロードしましょう。",
             "ファイル「" ++ (ac3.needed_file_list.getD ac3.cur_file_idx default).teigi ++ "」をアップロードしてください。"], ""),
     ac3)

/-- A needed file is already satisfied: its definition exists in storage
or it is covered by chaining. -/
def fileSatisfied (ac : ACState) (nf : NFile) : Bool :=
  nf.teigi ∈ ac.uploadedDefs || nf.teigi ∈ ac.reused_output_file_set

/-- The `while` loop of `_process_file_message` (lines 294-302): walk
the cursor forward past satisfied files, stopping at the first
unsatisfied file or end-of-list.  The fuel argument (the number of
entries left, which bounds the loop) keeps the recursion structural. -/
def skipSatisfiedFuel (ac : ACState) : Nat → Nat → Nat
  | 0, i => i
  | fuel + 1, i =>
    if h : i < ac.needed_file_list.length then
      if fileSatisfied ac (ac.needed_file_list.get ⟨i, h⟩) then skipSatisfiedFuel ac fuel (i + 1)
      else i
    else i

def skipSatisfied (ac : ACState) (i : Nat) : Nat :=
  skipSatisfiedFuel ac (ac.needed_file_list.length - i) i

/-- Python `str.replace` (replace every occurrence, scanning left to
right).  The extra fuel argument (bounded by the scanned list's length,
which each step strictly decreases) keeps the recursion structural. -/
def replaceAllFuel (pat repl : List Char) : Nat → List Char → List Char
  | 0, l => l
  | _, [] => []
  | fuel + 1, c :: rest =>
    if pat ≠ [] ∧ pat.isPrefixOf (c :: rest) then
      repl ++ replaceAllFuel pat repl fuel ((c :: rest).drop pat.length)
    else c :: replaceAllFuel pat repl fuel rest

def pyReplace (s pat repl : String) : String :=
  ⟨replaceAllFuel pat.data repl.data s.data.length s.data⟩

/-- Python `str.lower().endswith(suffix)`. -/
def endsWithLower (s suffix : String) : Bool :=
  suffix.data.isSuffixOf (pyLower s).data

/-- Outcome of validating/storing one uploaded file
(`_create_df_from_user_file` + `_process_df` + `store_csv_file`):
validated and stored, rejected with diagnostic info (a list or a single
string), or an exception inside the surrounding `try`. -/
inductive ValidateOut where
  | okDf
  | mismatch (info : Sum (List String) String)
  | exn (e : String)
deriving Repr

/-- Environment of one `AgentCollection._process_file_message` call. -/
structure ACEnv where
  isFile : String → Bool   -- `os.path.isfile`
  validate : ValidateOut
  today : String           -- `date.today().strftime("%Y-%m-%d")`

/-- The effect of `FileAgent.store_csv_file` on the storage view: the
uploaded file's definition becomes present. -/
def store_csv_file (ac : ACState) (d : String) : ACState :=
  { ac with uploadedDefs := ac.uploadedDefs ++ [d] }

/-- `AgentCollection._process_file_message` (lines 256-319). -/
def ac_process_file_message (env : ACEnv) (ac : ACState) (message : String) :
    (Resp × String) × ACState :=
  let file_path := pyStrip (pyReplace message "選択されたファイル: " "")
  let shared := "もう一回アップロードしてください。"
  if !env.isFile file_path then
    ((.str ("無効なファイルパスです。" ++ shared), ""), ac)
  else if !(endsWithLower file_path ".csv" || endsWithLower file_path ".xlsx") then
    ((.str ("EXCELとCSVファイルのみ受け付けます。" ++ shared), ""), ac)
  else
    if h : ac.cur_file_idx < ac.needed_file_list.length then
      let current_file := ac.needed_file_list.get ⟨ac.cur_file_idx, h⟩
      match lookupAgent ac.agents current_file.owner with
      | none =>
        -- `self.task_agents[...]` raises KeyError, caught by the except: back to chat
        ((.str ("エラー: KeyError: " ++ current_file.owner), ""), { ac with mode := .chat })
      | some _ =>
        match env.validate with
        | .exn e => ((.str ("エラー: " ++ e), ""), { ac with mode := .chat })
        | .mismatch info =>
          let lst := match info with
            | .inl l => "ファイルロード失敗しました。以下は不一致するところの情報です：" :: l ++ [shared]
            | .inr s => ["ファイルロード失敗しました。以下は不一致するところの情報です：", s, shared]
          ((.list lst, ""), ac)
        | .okDf =>
          let ac1 := store_csv_file ac current_file.teigi
          let idx2 := skipSatisfied ac1 (ac1.cur_file_idx + 1)
          let ac2 := { ac1 with cur_file_idx := idx2 }
          if idx2 = ac2.needed_file_list.length then
            let ac3 := { ac2 with mode := .date }
            let ((m, sig), ac4) := _process_date_message ac3 env.today
            ((.str m, sig), ac4)
          else
            ((.str ("ファイルを保存しました。\nファイル「" ++
                    (ac2.needed_file_list.getD idx2 default).teigi ++ "」をアップロードしてください。"), ""),
             ac2)
    else
      -- IndexError on `needed_file_list[cur_file_idx]`, caught: back to chat
      ((.str "エラー: IndexError", ""), { ac with mode := .chat })

/-! ## UI-level dispatch (`main.py`) -/

/-- `ChatGPTApp.on_task_selected` (main.py lines 638-663): select the
task, reset it, enter task mode, then start file collection. -/
def onTaskSelected (ac : ACState) (task_name : String) : ACState :=
  match lookupAgent ac.agents task_name with
  | none => ac   -- selection failed: error bubble only
  | some _ =>
    let ac1 := { ac with current_task := some task_name, mode := .chat }
    let ac2 := { ac1 with agents := updateAgent ac1.agents task_name TaskState.reset }
    let ac3 := { ac2 with mode := .task }
    (process_files ac3).2

/-- `ChatGPTApp._process_waiting_tasks` (main.py lines 513-517): pop the
head of the work queue and select it. -/
def _process_waiting_tasks (ac : ACState) : Option String × ACState :=
  match ac.workflow with
  | [] => (none, ac)
  | first :: rest => (some first, onTaskSelected { ac with workflow := rest } first)

/-- The `date` branch of `ChatGPTApp._process_agent_collection_response`
(main.py lines 502-508): on signal `"switch task"`, set orchestration
state to `task`, assign speed modes over the whole queue snapshot, then
hand off to the first waiting task. -/
def mainDateBranch (ac : ACState) (extra : String) : ACState :=
  if extra = "switch task" then
    (_process_waiting_tasks (set_task_speed_mode { ac with mode := ACMode.task })).2
  else ac

/-! ## C6: date handling -/

/-- A character whose lowercase form has a code point below 97 (`a`)
was not changed by lowering. -/
theorem Char_toLower_low_fixed (c : Char) (h : (Char.toLower c).toNat < 97) :
    Char.toLower c = c := by
  have hdef : Char.toLower c = if c.toNat ≥ 65 ∧ c.toNat ≤ 90 then Char.ofNat (c.toNat + 32) else c := rfl
  by_cases hc : c.toNat ≥ 65 ∧ c.toNat ≤ 90
  · exfalso
    rw [hdef, if_pos hc] at h
    have hval : Nat.isValidChar (c.toNat + 32) := Or.inl (by omega)
    have hv : (Char.ofNat (c.toNat + 32)).toNat = c.toNat + 32 := by
      unfold Char.ofNat
      rw [dif_pos hval]
      rfl
    rw [hv] at h
    omega
  · rw [hdef, if_neg hc]

/-- Every character accepted by the date-pattern body has a code point
below 97. -/
theorem validCore_mem_low (l : List Char) (h : isValidDateCore l = true) :
    ∀ c ∈ l, c.toNat < 97 := by
  rcases l with _|⟨y1,_|⟨y2,_|⟨y3,_|⟨y4,_|⟨s1,_|⟨m1,_|⟨m2,_|⟨s2,_|⟨d1,_|⟨d2,_|⟨x,rest⟩⟩⟩⟩⟩⟩⟩⟩⟩⟩⟩ <;>
    try exact Bool.noConfusion h
  simp only [isValidDateCore, isAsciiDigit, Bool.and_eq_true, Bool.or_eq_true,
    decide_eq_true_eq] at h
  intro c hc
  simp only [List.mem_cons, List.not_mem_nil, or_false] at hc
  rcases hc with rfl|rfl|rfl|rfl|rfl|rfl|rfl|rfl|rfl|rfl <;> omega

/-- On a string whose lowercased form passes the date format check,
lowering was the identity: the stamped value is the supplied text. -/
theorem pyLower_valid_fixed (s : String) (h : _is_valid_date_format (pyLower s) = true) :
    pyLower s = s := by
  have hlow : ∀ c ∈ (pyLower s).data, c.toNat < 97 := by
    unfold _is_valid_date_format at h
    rw [Bool.or_eq_true] at h
    rcases h with hcore | htail
    · exact validCore_mem_low _ hcore
    · split at htail
      · rename_i hl
        intro c hc
        have hne : (pyLower s).data ≠ [] := by
          intro hnil
          rw [hnil] at hl
          simp at hl
        have hsplit : (pyLower s).data = (pyLower s).data.dropLast ++ [(pyLower s).data.getLast hne] := by
          exact (List.dropLast_append_getLast hne).symm
        have hlast : (pyLower s).data.getLast hne = '\n' := by
          have := List.getLast?_eq_getLast (pyLower s).data hne
          rw [hl] at this
          exact (Option.some.injEq _ _).mp this.symm
        rw [hsplit] at hc
        rcases List.mem_append.mp hc with hc | hc
        · exact validCore_mem_low _ htail c hc
        · simp only [List.mem_singleton] at hc
          rw [hc, hlast]
          decide
      · exact absurd htail (by simp)
  have hdata : (pyLower s).data = s.data := by
    have : ∀ l : List Char, (∀ c ∈ l.map Char.toLower, c.toNat < 97) →
        l.map Char.toLower = l := by
      intro l
      induction l with
      | nil => intro _; rfl
      | cons a t ih =>
        intro hm
        simp only [List.map_cons, List.mem_cons] at hm
        have ha : Char.toLower a = a := Char_toLower_low_fixed a (hm _ (Or.inl rfl))
        have ht : List.map Char.toLower t = t := ih fun c hc => hm c (Or.inr hc)
        simp only [List.map_cons, ha, ht]
    exact this s.data (by simpa [pyLower] using hlow)
  cases s with
  | mk l => exact congrArg String.mk (by simpa [pyLower] using hdata)

/-- C6: in the `date` state, the text is validated against the
`YYYY-MM-DD` pattern with month `01`-`12`, day `01`-`31` and no further
calendar check (`"2024-01-31"` accepted; `"2024-13-01"`, `"24-01-01"`,
`"2024/01/01"` rejected); on success every known task's `current_date`
is stamped with the value and the response carries signal
`"switch task"`, upon which the main-window handler sets the
orchestration state to `task`; on failure the collection state is
unchanged (so it remains `date`) and a re-prompt message is
returned. -/
theorem date_handling :
    (_is_valid_date_format "2024-01-31" = true ∧
     _is_valid_date_format "2024-13-01" = false ∧
     _is_valid_date_format "24-01-01" = false ∧
     _is_valid_date_format "2024/01/01" = false) ∧
    (∀ ac : ACState, ∀ msg, _is_valid_date_format (pyLower msg) = true →
      (_process_date_message ac msg).1 =
        ("現在日付は「" ++ msg ++ "」です。\nタスクの処理は開始します。", "switch task") ∧
      ∀ p ∈ (_process_date_message ac msg).2.agents, p.2.current_date = some msg) ∧
    (∀ ac : ACState, ∀ msg, _is_valid_date_format (pyLower msg) = false →
      _process_date_message ac msg = (("日付形式をチェックして、もう一回入力してください。", ""), ac)) ∧
    (∀ ac : ACState, mainDateBranch ac "switch task" =
      (_process_waiting_tasks (set_task_speed_mode { ac with mode := ACMode.task })).2) ∧
    (∀ ac : ACState, ∀ e, e ≠ "switch task" → mainDateBranch ac e = ac) := by
  refine ⟨by decide, ?_, ?_, ?_, ?_⟩
  · intro ac msg h
    have hfix := pyLower_valid_fixed msg h
    have h' : _is_valid_date_format msg = true := by rw [← hfix]; exact h
    have key : _process_date_message ac msg =
        (("現在日付は「" ++ msg ++ "」です。\nタスクの処理は開始します。", "switch task"),
         { ac with agents := ac.agents.map fun p => (p.1, { p.2 with current_date := some msg }) }) := by
      simp only [_process_date_message, hfix, h']
      simp
    rw [key]
    refine ⟨rfl, ?_⟩
    intro p hp
    simp only [List.mem_map] at hp
    obtain ⟨q, _, rfl⟩ := hp
    rfl
  · intro ac msg h
    simp only [_process_date_message, h]
    simp
  · intro ac
    rfl
  · intro ac e he
    unfold mainDateBranch
    rw [if_neg he]

/-! ## C1: task_start selection -/

theorem lexLtChars_asymm : ∀ as bs, lexLtChars as bs = true → lexLtChars bs as = false := by
  intro as
  induction as with
  | nil =>
    intro bs h
    cases bs with
    | nil => exact Bool.noConfusion h
    | cons b bs => rfl
  | cons a as ih =>
    intro bs h
    cases bs with
    | nil => exact Bool.noConfusion h
    | cons b bs =>
      simp only [lexLtChars] at h ⊢
      by_cases hab : a.toNat < b.toNat
      · rw [if_neg (by omega), if_pos (by omega)]
      · by_cases hba : b.toNat < a.toNat
        · rw [if_neg hab, if_pos hba] at h
          exact Bool.noConfusion h
        · rw [if_neg hab, if_neg hba] at h
          rw [if_neg hba, if_neg hab]
          exact ih bs h

theorem lexLtChars_connex :
    ∀ as bs cs, lexLtChars cs as = true →
      lexLtChars cs bs = true ∨ lexLtChars bs as = true := by
  intro as
  induction as with
  | nil =>
    intro bs cs h
    cases cs with
    | nil => exact Bool.noConfusion h
    | cons c cs' => exact Bool.noConfusion h
  | cons a as ih =>
    intro bs cs h
    cases cs with
    | nil =>
      cases bs with
      | nil => exact Or.inr rfl
      | cons b bs' => exact Or.inl rfl
    | cons c cs' =>
      cases bs with
      | nil => exact Or.inr rfl
      | cons b bs' =>
        simp only [lexLtChars] at h ⊢
        by_cases hca : c.toNat < a.toNat
        · by_cases hcb : c.toNat < b.toNat
          · exact Or.inl (by rw [if_pos hcb])
          · exact Or.inr (by rw [if_pos (by omega)])
        · by_cases hac : a.toNat < c.toNat
          · rw [if_neg hca, if_pos hac] at h
            exact Bool.noConfusion h
          · rw [if_neg hca, if_neg hac] at h
            by_cases hcb : c.toNat < b.toNat
            · exact Or.inl (by rw [if_pos hcb])
            · by_cases hbc : b.toNat < c.toNat
              · exact Or.inr (by rw [if_pos (by omega)])
              · rcases ih bs' cs' h with h' | h'
                · exact Or.inl (by rw [if_neg hcb, if_neg hbc]; exact h')
                · exact Or.inr (by rw [if_neg (by omega), if_neg (by omega)]; exact h')

theorem pyStrLe_trans (a b c : String)
    (hab : pyStrLe a b = true) (hbc : pyStrLe b c = true) : pyStrLe a c = true := by
  unfold pyStrLe at *
  simp only [Bool.not_eq_true'] at hab hbc ⊢
  rcases hx : lexLtChars c.data a.data with _ | _
  · rfl
  · rcases lexLtChars_connex a.data b.data c.data hx with h2 | h2
    · rw [h2] at hbc
      exact Bool.noConfusion hbc
    · rw [h2] at hab
      exact Bool.noConfusion hab

theorem pyStrLe_total (a b : String) : (pyStrLe a b || pyStrLe b a) = true := by
  unfold pyStrLe
  rcases hx : lexLtChars b.data a.data with _ | _
  · rfl
  · have := lexLtChars_asymm b.data a.data hx
    rw [this]
    rfl

/-- Python's `sorted` order on strings as a relation. -/
def pyStrLeP (a b : String) : Prop := pyStrLe a b = true

instance : DecidableRel pyStrLeP := fun a b => inferInstanceAs (Decidable (_ = true))

instance : IsTrans String pyStrLeP := ⟨fun a b c => pyStrLe_trans a b c⟩

instance : IsTotal String pyStrLeP := by
  refine ⟨fun a b => ?_⟩
  cases hx : pyStrLe a b
  · right
    have h := pyStrLe_total a b
    rw [hx] at h
    simpa [pyStrLeP] using h
  · left
    exact hx

/-- `utils.return_most_similiar_word` (utils.py lines 12-29): best-match
fuzzy lookup with a similarity threshold.  `similarity_ratio` is
`difflib.SequenceMatcher(None, a, b).ratio()`, an external library
computation, so it enters the embedding as the explicit parameter
`sim`; the loop, threshold check and Python truthiness of the result
(`best_word and max_score >= threshold`: the empty string is falsy) are
embedded from the source. -/
def simStep (sim : String → String → ℚ) (input_word : String)
    (acc : ℚ × Option String) (w : String) : ℚ × Option String :=
  if sim input_word w > acc.1 then (sim input_word w, some w) else acc

def return_most_similiar_word (sim : String → String → ℚ) (input_word : String)
    (word_list : List String) (threshold : ℚ) : Option String :=
  if word_list = [] then none
  else
    let r := word_list.foldl (simStep sim input_word) (0, none)
    match r.2 with
    | some w => if w ≠ "" ∧ r.1 ≥ threshold then some w else none
    | none => none

theorem simStep_fst_le (sim : String → String → ℚ) (iw : String)
    (acc : ℚ × Option String) (w : String) : acc.1 ≤ (simStep sim iw acc w).1 := by
  unfold simStep
  split
  · exact le_of_lt (by assumption)
  · exact le_refl _

theorem simFold_fst_le (sim : String → String → ℚ) (iw : String) :
    ∀ (l : List String) (acc : ℚ × Option String),
      acc.1 ≤ (l.foldl (simStep sim iw) acc).1 := by
  intro l
  induction l with
  | nil => intro acc; exact le_refl _
  | cons w l ih =>
    intro acc
    exact le_trans (simStep_fst_le sim iw acc w) (ih (simStep sim iw acc w))

theorem simFold_ge_mem (sim : String → String → ℚ) (iw : String) :
    ∀ (l : List String) (acc : ℚ × Option String) (w : String), w ∈ l →
      sim iw w ≤ (l.foldl (simStep sim iw) acc).1 := by
  intro l
  induction l with
  | nil => intro acc w hw; exact absurd hw (List.not_mem_nil w)
  | cons w0 l ih =>
    intro acc w hw
    rcases List.mem_cons.mp hw with rfl | hw
    · refine le_trans ?_ (simFold_fst_le sim iw l (simStep sim iw acc w))
      unfold simStep
      split
      · exact le_refl _
      · exact le_of_not_lt (by assumption)
    · exact ih (simStep sim iw acc w0) w hw

theorem simFold_result (sim : String → String → ℚ) (iw : String) :
    ∀ (l : List String) (acc : ℚ × Option String),
      l.foldl (simStep sim iw) acc = acc ∨
        ∃ w ∈ l, l.foldl (simStep sim iw) acc = (sim iw w, some w) := by
  intro l
  induction l with
  | nil => intro acc; exact Or.inl rfl
  | cons w0 l ih =>
    intro acc
    rcases ih (simStep sim iw acc w0) with h | ⟨w, hw, h⟩
    · rw [List.foldl_cons, h]
      unfold simStep
      split
      · exact Or.inr ⟨w0, List.mem_cons_self w0 l, rfl⟩
      · exact Or.inl rfl
    · exact Or.inr ⟨w, List.mem_cons_of_mem w0 hw, by rw [List.foldl_cons, h]⟩

/-- What a successful fuzzy match guarantees: the result is a catalogue
entry, scores at least the threshold, no catalogue entry scores higher
(best-match-wins), and it is non-empty. -/
theorem return_most_similiar_word_spec (sim : String → String → ℚ)
    (iw : String) (wl : List String) (θ : ℚ) (w : String)
    (h : return_most_similiar_word sim iw wl θ = some w) :
    w ∈ wl ∧ θ ≤ sim iw w ∧ (∀ w' ∈ wl, sim iw w' ≤ sim iw w) ∧ w ≠ "" := by
  unfold return_most_similiar_word at h
  split at h
  · exact absurd h (by simp)
  · rcases hsnd : (wl.foldl (simStep sim iw) (0, none)).2 with _ | w0
    · simp only [hsnd] at h
      exact Option.noConfusion h
    · simp only [hsnd] at h
      split at h
      · rename_i hcond
        have hw0 : w0 = w := by
          injection h
        subst hw0
        rcases simFold_result sim iw wl (0, none) with hr | ⟨w1, hw1, hr⟩
        · rw [hr] at hsnd
          exact absurd hsnd (by simp)
        · have hw1w : w1 = w0 := by
            rw [hr] at hsnd
            injection hsnd
          subst hw1w
          have hfst : (wl.foldl (simStep sim iw) (0, none)).1 = sim iw w1 := by
            rw [hr]
          refine ⟨hw1, ?_, ?_, hcond.1⟩
          · rw [← hfst]
            exact hcond.2
          · intro w' hw'
            rw [← hfst]
            exact simFold_ge_mem sim iw wl (0, none) w' hw'
      · exact absurd h (by simp)

/-- Modelled from the spec: `AgentCollection.parse_task_names` — invoked
by `route_intent` on the task_start intent (agent_collection.py line
201) but not present anywhere in the source tree.  Per the spec: split
the classifier payload on `|`, fuzzy-match each name against the known
task name set with `utils.return_most_similiar_word` at its default
threshold 0.2 = 1/5, silently drop unmatched names, sort the matched
names alphabetically, enqueue them in that order onto the work queue,
and return a summary listing the chosen order.  The structure follows
the deprecated `WorkflowAgent.execute` selection branch
(workflow_agent_deprecated.py lines 288-304); Python's `sorted` is
rendered as a merge sort under `pyStrLe` and the enqueue loop as a left
fold of pushes. -/
def parse_task_names (sim : String → String → ℚ) (ac : ACState) (payload : String) :
    String × ACState :=
  let task_name_list := pySplitPipe payload
  let waiting_task := task_name_list.filterMap fun n =>
    return_most_similiar_word sim n (ac.agents.map Prod.fst) (1/5)
  let sorted_tasks := List.insertionSort pyStrLeP waiting_task
  let wf := sorted_tasks.foldl (fun q t => q ++ [t]) ac.workflow
  ("選んだタスクが以下の順番に処理する:\n" ++ String.intercalate "->" sorted_tasks,
   { ac with workflow := wf })

/-- The task_start branch of `AgentCollection.route_intent`
(agent_collection.py lines 200-203): parse the task names and return
the summary with signal `"selection"`. -/
def route_intent_task_start (sim : String → String → ℚ) (ac : ACState) (payload : String) :
    (Resp × String) × ACState :=
  let (info, ac') := parse_task_names sim ac payload
  ((.str info, "selection"), ac')

theorem foldl_push (l q : List String) :
    l.foldl (fun q t => q ++ [t]) q = q ++ l := by
  induction l generalizing q with
  | nil => simp
  | cons t l ih =>
    rw [List.foldl_cons, ih]
    simp

/-- C1: on a task_start intent the handler splits the pipe-delimited
payload, fuzzy-matches each name against the known task name set with
threshold 0.2 (best match wins), silently drops unmatched names, sorts
the matched names alphabetically (Python `<` on code points), enqueues
them in that order onto the work queue, and returns the chosen order
with signal `"selection"`. -/
theorem task_start_selection (sim : String → String → ℚ) (ac : ACState) (payload : String) :
    (route_intent_task_start sim ac payload).1.2 = "selection" ∧
    (route_intent_task_start sim ac payload).2.workflow =
      ac.workflow ++
        List.insertionSort pyStrLeP ((pySplitPipe payload).filterMap fun n =>
          return_most_similiar_word sim n (ac.agents.map Prod.fst) (1/5)) ∧
    List.Sorted pyStrLeP
      (List.insertionSort pyStrLeP ((pySplitPipe payload).filterMap fun n =>
        return_most_similiar_word sim n (ac.agents.map Prod.fst) (1/5))) ∧
    (List.insertionSort pyStrLeP ((pySplitPipe payload).filterMap fun n =>
        return_most_similiar_word sim n (ac.agents.map Prod.fst) (1/5))).Perm
      ((pySplitPipe payload).filterMap fun n =>
        return_most_similiar_word sim n (ac.agents.map Prod.fst) (1/5)) ∧
    (∀ n w, return_most_similiar_word sim n (ac.agents.map Prod.fst) (1/5) = some w →
      w ∈ ac.agents.map Prod.fst ∧ (1/5 : ℚ) ≤ sim n w ∧
        ∀ w' ∈ ac.agents.map Prod.fst, sim n w' ≤ sim n w) := by
  refine ⟨rfl, ?_, ?_, ?_, ?_⟩
  · simp only [route_intent_task_start, parse_task_names]
    rw [foldl_push]
  · exact List.sorted_insertionSort pyStrLeP _
  · exact List.perm_insertionSort pyStrLeP _
  · intro n w h
    have := return_most_similiar_word_spec sim n (ac.agents.map Prod.fst) (1/5) w h
    exact ⟨this.1, this.2.1, this.2.2.1⟩

/-- A second task agent. -/
def sampleTaskB : TaskState := { sampleTask with name := "給与タスクB" }

/-- A two-task collection idling in chat state. -/
def acChat : ACState where
  mode := .chat
  workflow := []
  agents := [("給与タスクA", sampleTask), ("給与タスクB", sampleTaskB)]
  current_task := none
  needed_file_list := []
  cur_file_idx := 0
  reused_output_file_set := []
  uploadedDefs := []

/-- A similarity function for concrete runs: 1 on equal strings. -/
def simEq : String → String → ℚ := fun a b => if a = b then 1 else 0

theorem task_start_selection_witness :
    (route_intent_task_start simEq acChat "給与タスクB|給与タスクA").1.2 = "selection" ∧
    (route_intent_task_start simEq acChat "給与タスクB|給与タスクA").2.workflow =
      ["給与タスクA", "給与タスクB"] ∧
    ("給与タスクB" ∈ acChat.agents.map Prod.fst ∧
      (1/5 : ℚ) ≤ simEq "給与タスクB" "給与タスクB" ∧
      ∀ w' ∈ acChat.agents.map Prod.fst,
        simEq "給与タスクB" w' ≤ simEq "給与タスクB" "給与タスクB") := by
  have hmap : acChat.agents.map Prod.fst = ["給与タスクA", "給与タスクB"] := rfl
  have hB : return_most_similiar_word simEq "給与タスクB" (acChat.agents.map Prod.fst) (1/5) =
      some "給与タスクB" := by
    rw [hmap]
    simp only [return_most_similiar_word, simStep, simEq, List.foldl, String.reduceEq]
    norm_num
    exact ⟨by decide, by decide⟩
  have hA : return_most_similiar_word simEq "給与タスクA" (acChat.agents.map Prod.fst) (1/5) =
      some "給与タスクA" := by
    rw [hmap]
    simp only [return_most_similiar_word, simStep, simEq, List.foldl, String.reduceEq]
    norm_num
    exact ⟨by decide, by decide⟩
  have h := task_start_selection simEq acChat "給与タスクB|給与タスクA"
  refine ⟨h.1, ?_, h.2.2.2.2 "給与タスクB" "給与タスクB" hB⟩
  rw [h.2.1]
  have hsplit : pySplitPipe "給与タスクB|給与タスクA" = ["給与タスクB", "給与タスクA"] := rfl
  rw [hsplit]
  simp only [List.filterMap_cons, List.filterMap_nil, hB, hA]
  decide

/-- The two-task collection awaiting the date confirmation. -/
def acDate : ACState := { acChat with mode := .date, workflow := ["給与タスクA", "給与タスクB"] }

theorem date_handling_witness :
    (_process_date_message acDate "2024-01-31").1 =
      ("現在日付は「2024-01-31」です。\nタスクの処理は開始します。", "switch task") ∧
    (∀ p ∈ (_process_date_message acDate "2024-01-31").2.agents,
      p.2.current_date = some "2024-01-31") ∧
    _process_date_message acDate "2024/01/01" =
      (("日付形式をチェックして、もう一回入力してください。", ""), acDate) :=
  ⟨(date_handling.2.1 acDate "2024-01-31" (by decide)).1,
   (date_handling.2.1 acDate "2024-01-31" (by decide)).2,
   date_handling.2.2.1 acDate "2024/01/01" (by decide)⟩

/-! ## C7: speed-mode assignment over the queue snapshot -/

theorem lookupAgent_updateAgent (ags : List (String × TaskState)) (m n : String)
    (f : TaskState → TaskState) :
    lookupAgent (updateAgent ags m f) n =
      (lookupAgent ags n).map fun t => if n = m then f t else t := by
  induction ags with
  | nil => rfl
  | cons p rest ih =>
    have hkey : (if p.1 = m then (p.1, f p.2) else p).1 = p.1 := by
      split <;> rfl
    simp only [updateAgent, lookupAgent, List.map_cons] at *
    by_cases hpn : p.1 = n
    · rw [List.find?_cons_of_pos _ (by rw [hkey]; simp [hpn]),
        List.find?_cons_of_pos _ (by simp [hpn])]
      simp only [Option.map]
      subst hpn
      by_cases hpm : p.1 = m
      · rw [if_pos hpm, if_pos hpm]
      · rw [if_neg hpm, if_neg hpm]
    · rw [List.find?_cons_of_neg _ (by rw [hkey]; simp [hpn]),
        List.find?_cons_of_neg _ (by simp [hpn])]
      exact ih

theorem lookupAgent_foldl_set (b : Bool) :
    ∀ (names : List String) (ags : List (String × TaskState)) (n : String),
      lookupAgent (names.foldl (fun a m => updateAgent a m fun t => { t with fast_mode := b }) ags) n =
        (lookupAgent ags n).map fun t => if n ∈ names then { t with fast_mode := b } else t := by
  intro names
  induction names with
  | nil =>
    intro ags n
    cases h : lookupAgent ags n <;> simp [h]
  | cons m names ih =>
    intro ags n
    rw [List.foldl_cons, ih, lookupAgent_updateAgent]
    cases hlk : lookupAgent ags n with
    | none => simp
    | some t =>
      refine congrArg some ?_
      beta_reduce
      by_cases hnm : n = m
      · rw [if_pos hnm]
        have hmemc : n ∈ m :: names := by rw [hnm]; exact List.mem_cons_self m names
        rw [if_pos hmemc]
        by_cases hmem : n ∈ names
        · rw [if_pos hmem]
        · rw [if_neg hmem]
      · rw [if_neg hnm]
        by_cases hmem : n ∈ names
        · rw [if_pos hmem, if_pos (List.mem_cons.mpr (Or.inr hmem))]
        · rw [if_neg hmem, if_neg (by simp [hnm, hmem])]

/-- C7: the speed-mode assignment runs once, inside the date-to-task
switch, immediately before the first queued task is popped; it covers
the entire queue snapshot: with more than one queued entry every queued
task's `fast_mode` becomes true, with exactly one entry it becomes
false, and the subsequently popped head comes from that same
snapshot. -/
theorem speed_mode_snapshot :
    (∀ ac : ACState, mainDateBranch ac "switch task" =
      (_process_waiting_tasks (set_task_speed_mode { ac with mode := ACMode.task })).2) ∧
    (∀ ac : ACState, 1 < ac.workflow.length → ∀ n ∈ ac.workflow, ∀ t,
      lookupAgent (set_task_speed_mode ac).agents n = some t → t.fast_mode = true) ∧
    (∀ ac : ACState, ac.workflow.length = 1 → ∀ n ∈ ac.workflow, ∀ t,
      lookupAgent (set_task_speed_mode ac).agents n = some t → t.fast_mode = false) ∧
    (∀ ac : ACState, ∀ first rest, ac.workflow = first :: rest →
      (_process_waiting_tasks (set_task_speed_mode ac)).1 = some first) := by
  refine ⟨fun ac => rfl, ?_, ?_, ?_⟩
  · intro ac hlen n hn t ht
    have hag : (set_task_speed_mode ac).agents =
        ac.workflow.foldl (fun a m => updateAgent a m fun t => { t with fast_mode := true }) ac.agents := by
      unfold set_task_speed_mode
      rw [if_pos hlen]
    rw [hag, lookupAgent_foldl_set] at ht
    cases hlk : lookupAgent ac.agents n with
    | none => rw [hlk] at ht; exact Option.noConfusion ht
    | some t0 =>
      rw [hlk] at ht
      simp only [Option.map, Option.some.injEq] at ht
      rw [← ht, if_pos hn]
  · intro ac hlen n hn t ht
    have hag : (set_task_speed_mode ac).agents =
        ac.workflow.foldl (fun a m => updateAgent a m fun t => { t with fast_mode := false }) ac.agents := by
      unfold set_task_speed_mode
      rw [if_neg (by omega)]
    rw [hag, lookupAgent_foldl_set] at ht
    cases hlk : lookupAgent ac.agents n with
    | none => rw [hlk] at ht; exact Option.noConfusion ht
    | some t0 =>
      rw [hlk] at ht
      simp only [Option.map, Option.some.injEq] at ht
      rw [← ht, if_pos hn]
  · intro ac first rest hwf
    have hwfeq : (set_task_speed_mode ac).workflow = ac.workflow := by
      unfold set_task_speed_mode
      split <;> rfl
    unfold _process_waiting_tasks
    rw [hwfeq, hwf]

/-- A one-task queue awaiting the date confirmation. -/
def acDate1 : ACState := { acDate with workflow := ["給与タスクA"] }

theorem speed_mode_snapshot_witness :
    (1 < acDate.workflow.length ∧
      ∃ t, lookupAgent (set_task_speed_mode acDate).agents "給与タスクB" = some t ∧
        t.fast_mode = true) ∧
    (acDate1.workflow.length = 1 ∧
      ∃ t, lookupAgent (set_task_speed_mode acDate1).agents "給与タスクA" = some t ∧
        t.fast_mode = false) :=
  ⟨⟨by decide, _, rfl,
    speed_mode_snapshot.2.1 acDate (by decide) "給与タスクB" (by decide) _ rfl⟩,
   ⟨by decide, _, rfl,
    speed_mode_snapshot.2.2.1 acDate1 (by decide) "給与タスクA" (by decide) _ rfl⟩⟩

/-! ## C5: the file-collection cursor -/

/-- What the `while` skip loop guarantees: it never moves backwards,
every index it walks past holds a satisfied file, and (when started in
range) it stops at end-of-list or at the first unsatisfied file. -/
theorem skipSatisfiedFuel_spec (ac : ACState) :
    ∀ (fuel i : Nat), ac.needed_file_list.length ≤ i + fuel →
      i ≤ skipSatisfiedFuel ac fuel i ∧
      (∀ j, i ≤ j → j < skipSatisfiedFuel ac fuel i →
        ∃ hj : j < ac.needed_file_list.length,
          fileSatisfied ac (ac.needed_file_list.get ⟨j, hj⟩) = true) ∧
      (i ≤ ac.needed_file_list.length →
        (skipSatisfiedFuel ac fuel i = ac.needed_file_list.length ∨
         ∃ hs : skipSatisfiedFuel ac fuel i < ac.needed_file_list.length,
           fileSatisfied ac (ac.needed_file_list.get ⟨skipSatisfiedFuel ac fuel i, hs⟩) = false)) := by
  intro fuel
  induction fuel with
  | zero =>
    intro i hle
    refine ⟨le_refl i, ?_, ?_⟩
    · intro j hj1 hj2
      simp only [skipSatisfiedFuel] at hj2
      omega
    · intro h2
      left
      show i = ac.needed_file_list.length
      omega
  | succ fuel ih =>
    intro i hle
    by_cases h : i < ac.needed_file_list.length
    · by_cases hsat : fileSatisfied ac (ac.needed_file_list.get ⟨i, h⟩) = true
      · have heq : skipSatisfiedFuel ac (fuel + 1) i = skipSatisfiedFuel ac fuel (i + 1) := by
          simp only [skipSatisfiedFuel, dif_pos h, if_pos hsat]
        obtain ⟨ih1, ih2, ih3⟩ := ih (i + 1) (by omega)
        refine ⟨by omega, ?_, ?_⟩
        · intro j hj1 hj2
          rw [heq] at hj2
          rcases Nat.eq_or_lt_of_le hj1 with rfl | hj1
          · exact ⟨h, hsat⟩
          · exact ih2 j hj1 hj2
        · intro _
          rw [heq]
          exact ih3 (by omega)
      · have heq : skipSatisfiedFuel ac (fuel + 1) i = i := by
          simp only [skipSatisfiedFuel, dif_pos h, if_neg hsat]
        refine ⟨by omega, ?_, ?_⟩
        · intro j hj1 hj2
          rw [heq] at hj2
          omega
        · intro _
          rw [heq]
          refine Or.inr ⟨h, ?_⟩
          cases hb : fileSatisfied ac (ac.needed_file_list.get ⟨i, h⟩)
          · rfl
          · exact absurd hb hsat
    · have heq : skipSatisfiedFuel ac (fuel + 1) i = i := by
        simp only [skipSatisfiedFuel, dif_neg h]
      refine ⟨by omega, ?_, ?_⟩
      · intro j hj1 hj2
        rw [heq] at hj2
        omega
      · intro hle2
        rw [heq]
        exact Or.inl (by omega)

theorem skipSatisfied_spec (ac : ACState) (i : Nat) :
    i ≤ skipSatisfied ac i ∧
    (∀ j, i ≤ j → j < skipSatisfied ac i →
      ∃ hj : j < ac.needed_file_list.length,
        fileSatisfied ac (ac.needed_file_list.get ⟨j, hj⟩) = true) ∧
    (i ≤ ac.needed_file_list.length →
      (skipSatisfied ac i = ac.needed_file_list.length ∨
       ∃ hs : skipSatisfied ac i < ac.needed_file_list.length,
         fileSatisfied ac (ac.needed_file_list.get ⟨skipSatisfied ac i, hs⟩) = false)) :=
  skipSatisfiedFuel_spec ac (ac.needed_file_list.length - i) i (by omega)

/-- C5 counterexample: at initial planning the advancement rule is not
applied — with a single needed file whose definition already exists in
storage, `_collect_all_needed_files` leaves the cursor at 0 on the
satisfied file (whereas the skip loop would move it to the end, which
the claim says should complete collection), and `process_files` prompts
for that already-satisfied file instead of transitioning to `date`. -/
def taskC5 : TaskState :=
  { sampleTask with files := [{ fname := "出力ファイル", teigi := "f1", output := true, required := true, owner := none }] }

def acC5 : ACState :=
  { acChat with workflow := ["給与タスクA"], agents := [("給与タスクA", taskC5)], uploadedDefs := ["f1"] }

def acPlanned : ACState := _collect_all_needed_files acC5

theorem cursor_planning_counterexample :
    acPlanned.cur_file_idx = 0 ∧
    acPlanned.needed_file_list.length = 1 ∧
    fileSatisfied acPlanned (acPlanned.needed_file_list.getD 0 default) = true ∧
    skipSatisfied acPlanned 0 = 1 ∧
    (process_files acC5).1.1 =
      .list ["今から必要なファイルをアップロードしましょう。",
             "ファイル「f1」をアップロードしてください。"] ∧
    (process_files acC5).1.2 ≠ "switch task" ∧
    (process_files acC5).2.cur_file_idx = 0 ∧
    (process_files acC5).2.mode = ACMode.file := by
  exact ⟨rfl, rfl, rfl, by decide, rfl, by decide, rfl, rfl⟩

/-- Date processing never moves the file cursor. -/
theorem _process_date_message_cur (a : ACState) (m : String) :
    (_process_date_message a m).2.cur_file_idx = a.cur_file_idx := by
  cases h : _is_valid_date_format (pyLower m) <;> simp [_process_date_message, h]

/-- C5 (amended): the cursor advancement rule is applied after each
successful upload (not at initial planning, which just resets the
cursor to 0): starting from the stored-upload state at the old cursor
plus one, it increments past every satisfied file and stops at the
first unsatisfied file or end-of-list (per `skipSatisfied_spec`), and
when it reaches the end of the needed-file list, orchestration
transitions to `date` pre-filled with today's date, immediately
processed as a date message. -/
theorem upload_advances_cursor (env : ACEnv) (ac : ACState) (msg : String)
    (hfp : env.isFile (pyStrip (pyReplace msg "選択されたファイル: " "")) = true)
    (hext : (endsWithLower (pyStrip (pyReplace msg "選択されたファイル: " "")) ".csv" ||
             endsWithLower (pyStrip (pyReplace msg "選択されたファイル: " "")) ".xlsx") = true)
    (hidx : ac.cur_file_idx < ac.needed_file_list.length)
    (tg : TaskState)
    (hagent : lookupAgent ac.agents (ac.needed_file_list.get ⟨ac.cur_file_idx, hidx⟩).owner = some tg)
    (hval : env.validate = .okDf) :
    ((_collect_all_needed_files ac).cur_file_idx = 0) ∧
    ((ac_process_file_message env ac msg).2.cur_file_idx =
      skipSatisfied (store_csv_file ac (ac.needed_file_list.get ⟨ac.cur_file_idx, hidx⟩).teigi)
        (ac.cur_file_idx + 1)) ∧
    (ac.cur_file_idx + 1 ≤
      skipSatisfied (store_csv_file ac (ac.needed_file_list.get ⟨ac.cur_file_idx, hidx⟩).teigi)
        (ac.cur_file_idx + 1)) ∧
    (∀ j, ac.cur_file_idx + 1 ≤ j →
      j < skipSatisfied (store_csv_file ac (ac.needed_file_list.get ⟨ac.cur_file_idx, hidx⟩).teigi)
            (ac.cur_file_idx + 1) →
      ∃ hj : j < ac.needed_file_list.length,
        fileSatisfied (store_csv_file ac (ac.needed_file_list.get ⟨ac.cur_file_idx, hidx⟩).teigi)
          (ac.needed_file_list.get ⟨j, hj⟩) = true) ∧
    (skipSatisfied (store_csv_file ac (ac.needed_file_list.get ⟨ac.cur_file_idx, hidx⟩).teigi)
        (ac.cur_file_idx + 1) = ac.needed_file_list.length ∨
     ∃ hs : skipSatisfied (store_csv_file ac (ac.needed_file_list.get ⟨ac.cur_file_idx, hidx⟩).teigi)
              (ac.cur_file_idx + 1) < ac.needed_file_list.length,
       fileSatisfied (store_csv_file ac (ac.needed_file_list.get ⟨ac.cur_file_idx, hidx⟩).teigi)
         (ac.needed_file_list.get ⟨_, hs⟩) = false) ∧
    (skipSatisfied (store_csv_file ac (ac.needed_file_list.get ⟨ac.cur_file_idx, hidx⟩).teigi)
        (ac.cur_file_idx + 1) = ac.needed_file_list.length →
      ac_process_file_message env ac msg =
        (let acD := { store_csv_file ac (ac.needed_file_list.get ⟨ac.cur_file_idx, hidx⟩).teigi with
          cur_file_idx := ac.needed_file_list.length, mode := ACMode.date }
         let r := _process_date_message acD env.today
         ((.str r.1.1, r.1.2), r.2))) ∧
    (skipSatisfied (store_csv_file ac (ac.needed_file_list.get ⟨ac.cur_file_idx, hidx⟩).teigi)
        (ac.cur_file_idx + 1) ≠ ac.needed_file_list.length →
      ac_process_file_message env ac msg =
        ((.str ("ファイルを保存しました。\nファイル「" ++
            (ac.needed_file_list.getD
              (skipSatisfied (store_csv_file ac (ac.needed_file_list.get ⟨ac.cur_file_idx, hidx⟩).teigi)
                (ac.cur_file_idx + 1)) default).teigi ++ "」をアップロードしてください。"), ""),
         { store_csv_file ac (ac.needed_file_list.get ⟨ac.cur_file_idx, hidx⟩).teigi with
           cur_file_idx :=
             skipSatisfied (store_csv_file ac (ac.needed_file_list.get ⟨ac.cur_file_idx, hidx⟩).teigi)
               (ac.cur_file_idx + 1) })) := by
  have key : ∀ P : ((Resp × String) × ACState) → Prop,
      (P (let ac1 := store_csv_file ac (ac.needed_file_list.get ⟨ac.cur_file_idx, hidx⟩).teigi
          let idx2 := skipSatisfied ac1 (ac1.cur_file_idx + 1)
          let ac2 := { ac1 with cur_file_idx := idx2 }
          if idx2 = ac2.needed_file_list.length then
            let ac3 := { ac2 with mode := .date }
            let r := _process_date_message ac3 env.today
            ((.str r.1.1, r.1.2), r.2)
          else
            ((.str ("ファイルを保存しました。\nファイル「" ++
                    (ac2.needed_file_list.getD idx2 default).teigi ++ "」をアップロードしてください。"), ""),
             ac2))) →
      P (ac_process_file_message env ac msg) := by
    intro P hP
    unfold ac_process_file_message
    simp only [hfp, hext, Bool.not_true, Bool.false_eq_true, if_false, dif_pos hidx,
      hagent, hval]
    exact hP
  refine ⟨rfl, ?_,
    (skipSatisfied_spec (store_csv_file ac (ac.needed_file_list.get ⟨ac.cur_file_idx, hidx⟩).teigi)
      (ac.cur_file_idx + 1)).1,
    (skipSatisfied_spec (store_csv_file ac (ac.needed_file_list.get ⟨ac.cur_file_idx, hidx⟩).teigi)
      (ac.cur_file_idx + 1)).2.1,
    (skipSatisfied_spec (store_csv_file ac (ac.needed_file_list.get ⟨ac.cur_file_idx, hidx⟩).teigi)
      (ac.cur_file_idx + 1)).2.2
      (by show ac.cur_file_idx + 1 ≤ ac.needed_file_list.length; omega),
    ?_, ?_⟩
  · refine key (fun r => r.2.cur_file_idx = _) ?_
    simp only
    split
    · exact _process_date_message_cur _ _
    · rfl
  · intro hc
    refine key (fun r => r = _) ?_
    simp only [store_csv_file] at hc ⊢
    rw [if_pos hc, hc]
  · intro hc
    refine key (fun r => r = _) ?_
    simp only [store_csv_file] at hc ⊢
    rw [if_neg hc]

/-- An upload environment: the path exists, validation passes. -/
def envUp : ACEnv := { isFile := fun _ => true, validate := .okDf, today := "2024-01-31" }

/-- Mid-collection session: two needed files, none uploaded yet. -/
def acUp : ACState :=
  { acChat with mode := .file, workflow := ["給与タスクA"], needed_file_list := [{ teigi := "f1", fname := "出力ファイル", output := true, owner := "給与タスクA" }, { teigi := "f2", fname := "入力ファイル", output := false, owner := "給与タスクA" }], cur_file_idx := 0 }

/-- Mid-collection session: a single needed file. -/
def acUp1 : ACState :=
  { acUp with needed_file_list := [{ teigi := "f1", fname := "出力ファイル", output := true, owner := "給与タスクA" }] }

theorem upload_advances_cursor_witness :
    ((ac_process_file_message envUp acUp "選択されたファイル: /tmp/a.csv").2.cur_file_idx = 1 ∧
     (ac_process_file_message envUp acUp "選択されたファイル: /tmp/a.csv").1 =
       (.str "ファイルを保存しました。\nファイル「f2」をアップロードしてください。", "")) ∧
    ((ac_process_file_message envUp acUp1 "選択されたファイル: /tmp/a.csv").1.2 = "switch task" ∧
     (ac_process_file_message envUp acUp1 "選択されたファイル: /tmp/a.csv").2.mode = ACMode.date ∧
     (ac_process_file_message envUp acUp1 "選択されたファイル: /tmp/a.csv").2.cur_file_idx = 1) := by
  have h2 := upload_advances_cursor envUp acUp "選択されたファイル: /tmp/a.csv"
    rfl (by decide) (by decide) sampleTask rfl rfl
  have h1 := upload_advances_cursor envUp acUp1 "選択されたファイル: /tmp/a.csv"
    rfl (by decide) (by decide) sampleTask rfl rfl
  constructor
  · constructor
    · exact h2.2.1.trans (by decide)
    · have h := h2.2.2.2.2.2.2 (by decide)
      rw [h]
      decide
  · have h := h1.2.2.2.2.2.1 (by decide)
    rw [h]
    exact ⟨by decide, by decide, by decide⟩

end InfoDeliver
